import Mathlib

/-
  Verification development for the AlgoBlocks paper-trading core.

  The definitions below are a shallow embedding of the JavaScript source:
  - src/server/src/helpers/indicatorHelpers.js (indicator, action and
    condition helper functions),
  - the paper-trading service and controller (createSession, getSession,
    updateSession, stopSession, deleteSession, processStrategy,
    executeSignals, updatePositions, updateMetrics).

  Modelling conventions:
  - JavaScript numbers are modelled as exact rationals (ℚ).  Division by
    zero in ℚ yields 0 where JavaScript would produce NaN or Infinity;
    every place where this matters is guarded to reproduce the observable
    JavaScript behaviour and carries a comment.
  - `undefined` is modelled with `Option`.  JavaScript NaN produced by
    `parseFloat` on a non-numeric string is modelled as `none` (NaN and
    `undefined` are observationally equivalent in every comparison the
    source performs).
  - JavaScript `Date` values are modelled by a `now : Nat` timestamp that
    is threaded through the state-changing functions.
  - The in-memory `Map` of sessions and the `indicators` object are
    modelled as association lists with first-key-wins lookup and
    replace-first update, matching one-binding-per-key JavaScript objects.
  - Thrown JavaScript exceptions are modelled with `Except String`.
-/

namespace AlgoBlocks

/-- Replace the first element satisfying `pred` by its image under `f`
(models in-place mutation of the object returned by `Array.find`). -/
def updateFirst (pred : α → Bool) (f : α → α) : List α → List α
  | [] => []
  | x :: xs => if pred x then f x :: xs else x :: updateFirst pred f xs

/-- Remove the first element satisfying `pred`
(models `Array.splice(indexFoundByFindIndex, 1)`). -/
def removeFirst (pred : α → Bool) : List α → List α
  | [] => []
  | x :: xs => if pred x then xs else x :: removeFirst pred xs

/-- Lookup in an association list (models `map.get(k)` / `obj[k]`). -/
def alookup (m : List (String × α)) (k : String) : Option α :=
  (m.find? (fun kv => kv.1 == k)).map (·.2)

/-- Set a key in an association list, replacing an existing binding
(models `map.set(k, v)` / `obj[k] = v`). -/
def aset (m : List (String × α)) (k : String) (v : α) : List (String × α) :=
  if (m.find? (fun kv => kv.1 == k)).isSome then
    updateFirst (fun kv => kv.1 == k) (fun kv => (kv.1, v)) m
  else
    m ++ [(k, v)]

/-- Delete a key from an association list (models `map.delete(k)`). -/
def aremove (m : List (String × α)) (k : String) : List (String × α) :=
  removeFirst (fun kv => kv.1 == k) m

/-- JavaScript `x || d` for an optional number: `undefined` and `0` are
falsy, every other number is truthy. -/
def jsOrQ (x : Option ℚ) (d : ℚ) : ℚ :=
  match x with
  | none => d
  | some v => if v = 0 then d else v

/-- JavaScript `x || d` for an optional natural-number setting. -/
def jsOrNat (x : Option Nat) (d : Nat) : Nat :=
  match x with
  | none => d
  | some v => if v = 0 then d else v

/-- JavaScript `x || d` for an optional string: `undefined` and the empty
string are falsy. -/
def jsOrStr (x : Option String) (d : String) : String :=
  match x with
  | none => d
  | some v => if v = "" then d else v

/-- Accumulate a list of decimal digit characters into a natural number. -/
def digitsToNat : List Char → Nat → Nat
  | [], acc => acc
  | c :: cs, acc => digitsToNat cs (acc * 10 + (c.toNat - 48))

/-- JavaScript `parseFloat` on a string, restricted to plain decimal
numerals (optional sign, integer part, optional fraction).  A result of
NaN — no leading numeral at all — is modelled as `none`.  Exponent forms
are outside the model; no strategy setting in the repository uses them. -/
def parseFloat (s : String) : Option ℚ :=
  let cs := s.data.dropWhile (fun c => c == ' ')
  let signed : ℚ × List Char :=
    match cs with
    | [] => (1, cs)
    | c :: rest =>
        if c = '-' then (-1, rest)
        else if c = '+' then (1, rest)
        else (1, cs)
  let intPart := signed.2.takeWhile Char.isDigit
  let afterInt := signed.2.dropWhile Char.isDigit
  let fracPart :=
    match afterInt with
    | [] => []
    | c :: rest => if c = '.' then rest.takeWhile Char.isDigit else []
  if intPart.isEmpty ∧ fracPart.isEmpty then none
  else
    some (signed.1 *
      ((digitsToNat intPart 0 : ℚ) +
        (digitsToNat fracPart 0 : ℚ) / ((10 : ℚ) ^ fracPart.length)))

/-- JavaScript `parseInt(x, 10)` applied to a number: truncation toward
zero (the number is stringified and the integer part re-parsed). -/
def jsParseInt (q : ℚ) : ℚ :=
  if q < 0 then ((Rat.ceil q : ℤ) : ℚ) else ((Rat.floor q : ℤ) : ℚ)

/-- One OHLCV candle of market history.  The JavaScript field `open` is a
Lean keyword and is rendered `open_`. -/
structure Candle where
  time : ℚ
  open_ : ℚ
  high : ℚ
  low : ℚ
  close : ℚ
  volume : ℚ
deriving DecidableEq, Repr

/-- Dynamic field access `candle[field]`; an unknown field name yields
`undefined`, modelled as `none`. -/
def Candle.fieldOpt (c : Candle) (f : String) : Option ℚ :=
  if f = "time" then some c.time
  else if f = "open" then some c.open_
  else if f = "high" then some c.high
  else if f = "low" then some c.low
  else if f = "close" then some c.close
  else if f = "volume" then some c.volume
  else none

/-- Field access used by the indicator calculators, which never check for
`undefined`: an unknown field (NaN arithmetic in JavaScript) is collapsed
to 0.  Every call site in the repository uses a valid field name. -/
def Candle.fieldD (c : Candle) (f : String) : ℚ :=
  (c.fieldOpt f).getD 0

/-- Per-symbol market data snapshot `{price, timestamp, history}`. -/
structure SymbolData where
  price : ℚ
  timestamp : Nat
  history : List Candle
deriving DecidableEq, Repr

/-- The `marketData` object, keyed by symbol. -/
abbrev MarketData := List (String × SymbolData)

/-- The free-form `settings` object of a block: the union of every field
the helper functions destructure.  A field a given block type does not
set is `none` (`undefined`).  The threshold `value` and the stop-loss /
take-profit `value` and `trailingValue` are modelled directly as numbers
(the source applies `parseFloat` to them, which is the identity on
numbers). -/
structure BlockSettings where
  symbol : Option String := none
  period : Option Nat := none
  priceField : Option String := none
  fastPeriod : Option Nat := none
  slowPeriod : Option Nat := none
  signalPeriod : Option Nat := none
  deviations : Option ℚ := none
  overbought : Option ℚ := none
  oversold : Option ℚ := none
  orderType : Option String := none
  quantity : Option ℚ := none
  price : Option ℚ := none
  riskLevel : Option ℚ := none
  percentage : Option ℚ := none
  direction : Option String := none
  source1Type : Option String := none
  source2Type : Option String := none
  source1 : Option String := none
  source2 : Option String := none
  sourceType : Option String := none
  source : Option String := none
  operator : Option String := none
  value : Option ℚ := none
  patternType : Option String := none
  lookbackPeriod : Option Nat := none
  sltpType : Option String := none
  trailingType : Option String := none
  trailingValue : Option ℚ := none
deriving DecidableEq, Repr

/-- One strategy block: `{id, type, subtype, settings}`. -/
structure Block where
  id : String
  type : String
  subtype : String
  settings : BlockSettings
deriving DecidableEq, Repr

/-- A strategy document as the paper-trading service consumes it:
its block list, its owner (`strategy.user`) and its symbol list. -/
structure Strategy where
  user : String
  blocks : List Block
  symbols : Option (List String) := none
deriving DecidableEq, Repr

/-- Result record of the single-series indicators (SMA, EMA, RSI):
`{value, history, period, timestamp}`, plus the `overbought` / `oversold`
thresholds that only the RSI result carries. -/
structure SeriesResult where
  value : ℚ
  history : List ℚ
  period : Nat
  timestamp : Nat
  overbought : Option ℚ := none
  oversold : Option ℚ := none
deriving DecidableEq, Repr

/-- Result of `calculateMACD`: the three series, with the `value` fields
of the source being the last element of each series. -/
structure MACDResult where
  macd : List ℚ
  signal : List ℚ
  histogram : List ℚ
  fastPeriod : Nat
  slowPeriod : Nat
  signalPeriod : Nat
  timestamp : Nat
deriving DecidableEq, Repr

/-- Result of `calculateBollingerBands`.  A band point is
`mean ± deviations × stdDev`; the square root is irrational over ℚ, so
each point is kept as the middle value together with the exact square of
the band offset, `(deviations × stdDev)² = deviations² × variance`. -/
structure BBResult where
  middle : List ℚ
  bandOffsetSq : List ℚ
  period : Nat
  deviations : ℚ
  timestamp : Nat
deriving DecidableEq, Repr

/-- An indicator result as stored into the `indicators` map: a numeric
single-series record, or the structured MACD / Bollinger objects. -/
inductive IndicatorResult where
  | series : SeriesResult → IndicatorResult
  | macd : MACDResult → IndicatorResult
  | bb : BBResult → IndicatorResult
deriving DecidableEq, Repr

/-- `indicator?.value` read as a number: the structured MACD / Bollinger
`value` objects compare as NaN in every JavaScript comparison, which is
observationally `none`. -/
def IndicatorResult.valueOpt : IndicatorResult → Option ℚ
  | .series r => some r.value
  | .macd _ => none
  | .bb _ => none

/-- The previous indicator value as read by `getPreviousSourceValue`:
for an array history the second-to-last element provided there are at
least two, otherwise `undefined`; for the structured MACD / Bollinger
results the source falls back to the non-numeric `value` object, which
is observationally `none`. -/
def IndicatorResult.prevOpt : IndicatorResult → Option ℚ
  | .series r =>
      if r.history.length < 2 then none
      else r.history.get? (r.history.length - 2)
  | .macd _ => none
  | .bb _ => none

/-- The `indicators` accumulator of `processStrategy`, keyed by block id. -/
abbrev Indicators := List (String × IndicatorResult)

/-- The SMA series: for `i` from `period - 1` while `i < prices.length`,
the mean of `prices.slice(i - period + 1, i + 1)`.  Written over the
window start index `k = i - (period - 1)`; for fewer than `period`
prices the loop body never runs. -/
def smaSeries (prices : List ℚ) (period : Nat) : List ℚ :=
  (List.range (prices.length + 1 - period)).map
    (fun k => ((prices.drop k).take period).sum / (period : ℚ))

/-- `calculateSMA(priceData, settings)`. -/
def calculateSMA (priceData : SymbolData) (settings : BlockSettings) :
    Except String SeriesResult :=
  let period := jsOrNat settings.period 14
  let priceField := jsOrStr settings.priceField "close"
  let prices := priceData.history.map (fun c => c.fieldD priceField)
  if prices.length < period then
    .error ("Not enough data to calculate SMA(" ++ toString period ++
      "). Need at least " ++ toString period ++ " periods.")
  else
    let smaValues := smaSeries prices period
    -- `smaValues[smaValues.length - 1]`; nonempty under the length guard
    .ok { value := smaValues.getLastD 0
          history := smaValues
          period := period
          timestamp := priceData.timestamp }

/-- The EMA recurrence `(price - prevEMA) × k + prevEMA`, emitting one
value per remaining price. -/
def emaStep (multiplier : ℚ) (prev : ℚ) : List ℚ → List ℚ
  | [] => []
  | p :: ps =>
      let e := (p - prev) * multiplier + prev
      e :: emaStep multiplier e ps

/-- `calculateEMA(priceData, settings)`:
multiplier `2 / (period + 1)`, seeded with the SMA of the first `period`
prices. -/
def calculateEMA (priceData : SymbolData) (settings : BlockSettings) :
    Except String SeriesResult :=
  let period := jsOrNat settings.period 12
  let priceField := jsOrStr settings.priceField "close"
  let prices := priceData.history.map (fun c => c.fieldD priceField)
  if prices.length < period then
    .error ("Not enough data to calculate EMA(" ++ toString period ++
      "). Need at least " ++ toString period ++ " periods.")
  else
    let multiplier : ℚ := 2 / ((period : ℚ) + 1)
    let initialSMA := (prices.take period).sum / (period : ℚ)
    let emaValues := initialSMA :: emaStep multiplier initialSMA (prices.drop period)
    .ok { value := emaValues.getLastD 0
          history := emaValues
          period := period
          timestamp := priceData.timestamp }

/-- Wilder smoothing for the RSI: consumes the zipped (gain, loss) pairs
from index `period` onward, emitting one RSI value each. -/
def rsiStep (period : ℚ) (avgGain avgLoss : ℚ) : List (ℚ × ℚ) → List ℚ
  | [] => []
  | (g, l) :: rest =>
      let ag := (avgGain * (period - 1) + g) / period
      let al := (avgLoss * (period - 1) + l) / period
      let rs := ag / (if al = 0 then 1 / 1000 else al)
      (100 - 100 / (1 + rs)) :: rsiStep period ag al rest

/-- `calculateRSI(priceData, settings)`. -/
def calculateRSI (priceData : SymbolData) (settings : BlockSettings) :
    Except String SeriesResult :=
  let period := jsOrNat settings.period 14
  let priceField := jsOrStr settings.priceField "close"
  let prices := priceData.history.map (fun c => c.fieldD priceField)
  if prices.length < period + 1 then
    .error ("Not enough data to calculate RSI(" ++ toString period ++
      "). Need at least " ++ toString (period + 1) ++ " periods.")
  else
    -- changes[i-1] = prices[i] - prices[i-1]
    let changes := List.zipWith (fun a b => a - b) (prices.drop 1) prices
    let gains := changes.map (fun c => if c > 0 then c else 0)
    let losses := changes.map (fun c => if c < 0 then |c| else 0)
    let avgGain := (gains.take period).sum / (period : ℚ)
    let avgLoss := (losses.take period).sum / (period : ℚ)
    let rs := avgGain / (if avgLoss = 0 then 1 / 1000 else avgLoss)
    let firstRSI := 100 - 100 / (1 + rs)
    let rsiValues := firstRSI ::
      rsiStep (period : ℚ) avgGain avgLoss
        (List.zip (gains.drop period) (losses.drop period))
    .ok { value := rsiValues.getLastD 0
          history := rsiValues
          period := period
          timestamp := priceData.timestamp
          overbought := some (jsOrQ settings.overbought 70)
          oversold := some (jsOrQ settings.oversold 30) }

/-- `calculateMACD(priceData, settings)`.  The fast and slow EMA calls
succeed whenever the `slowPeriod + signalPeriod` length guard passed, so
the error branches below are unreachable but kept for the embedding to
be total. -/
def calculateMACD (priceData : SymbolData) (settings : BlockSettings) :
    Except String MACDResult :=
  let fastPeriod := jsOrNat settings.fastPeriod 12
  let slowPeriod := jsOrNat settings.slowPeriod 26
  let signalPeriod := jsOrNat settings.signalPeriod 9
  let priceField := jsOrStr settings.priceField "close"
  let prices := priceData.history.map (fun c => c.fieldD priceField)
  if prices.length < slowPeriod + signalPeriod then
    .error ("Not enough data to calculate MACD(" ++ toString fastPeriod ++
      "," ++ toString slowPeriod ++ "," ++ toString signalPeriod ++ ")")
  else
    match calculateEMA priceData { period := some fastPeriod, priceField := settings.priceField },
          calculateEMA priceData { period := some slowPeriod, priceField := settings.priceField } with
    | .ok fastEMA, .ok slowEMA =>
        let macdLine := List.zipWith (fun a b => a - b) fastEMA.history slowEMA.history
        let signalLine :=
          if macdLine.length ≥ signalPeriod then
            let initialSMA := (macdLine.take signalPeriod).sum / (signalPeriod : ℚ)
            let multiplier : ℚ := 2 / ((signalPeriod : ℚ) + 1)
            initialSMA :: emaStep multiplier initialSMA (macdLine.drop signalPeriod)
          else []
        let histogram := List.zipWith (fun a b => a - b) macdLine signalLine
        .ok { macd := macdLine
              signal := signalLine
              histogram := histogram
              fastPeriod := fastPeriod
              slowPeriod := slowPeriod
              signalPeriod := signalPeriod
              timestamp := priceData.timestamp }
    | .error e, _ => .error e
    | _, .error e => .error e

/-- `calculateBollingerBands(priceData, settings)`: middle band is the
SMA series; for each window the population variance against that
window's mean determines the band offset (kept squared, see `BBResult`). -/
def calculateBollingerBands (priceData : SymbolData) (settings : BlockSettings) :
    Except String BBResult :=
  let period := jsOrNat settings.period 20
  let deviations := jsOrQ settings.deviations 2
  let priceField := jsOrStr settings.priceField "close"
  let prices := priceData.history.map (fun c => c.fieldD priceField)
  if prices.length < period then
    .error ("Not enough data to calculate Bollinger Bands(" ++
      toString period ++ "," ++ toString deviations ++ ")")
  else
    match calculateSMA priceData { period := some period, priceField := settings.priceField } with
    | .error e => .error e
    | .ok sma =>
        let offsetSq := (List.range (prices.length + 1 - period)).map (fun k =>
          let slice := (prices.drop k).take period
          let mean := sma.history.getD k 0
          let variance := (slice.map (fun p => (p - mean) ^ 2)).sum / (period : ℚ)
          deviations ^ 2 * variance)
        .ok { middle := sma.history
              bandOffsetSq := offsetSq
              period := period
              deviations := deviations
              timestamp := priceData.timestamp }

/-- `applyIndicator(block, marketData)`: pick the symbol (an explicit
setting, else the first key of the market data), require history, and
dispatch on the indicator subtype. -/
def applyIndicator (block : Block) (marketData : MarketData) :
    Except String IndicatorResult :=
  let symbol :=
    match block.settings.symbol with
    | some s => s
    | none => ((marketData.map (·.1)).headD "")
  -- `!priceData || !priceData.history`: the model's SymbolData always
  -- carries a history list (an empty array is truthy in JavaScript), so
  -- only the missing-symbol half of the guard can fire.
  match alookup marketData symbol with
  | none => .error ("No historical data found for " ++ symbol)
  | some priceData =>
    if block.subtype = "sma" then (calculateSMA priceData block.settings).map .series
    else if block.subtype = "ema" then (calculateEMA priceData block.settings).map .series
    else if block.subtype = "rsi" then (calculateRSI priceData block.settings).map .series
    else if block.subtype = "macd" then (calculateMACD priceData block.settings).map .macd
    else if block.subtype = "bb" then (calculateBollingerBands priceData block.settings).map .bb
    else .error ("Unknown indicator type: " ++ block.subtype)

/-- Character-level splitting used to model `source.split(".")`:
structural recursion so that concrete evaluations reduce (the library
`String.splitOn` is defined by well-founded recursion).  For the
one-character separator `"."` the two agree with the JavaScript
semantics, empty parts included. -/
def splitDotAux : List Char → List Char → List String
  | [], acc => [String.mk acc.reverse]
  | c :: cs, acc =>
      if c = '.' then String.mk acc.reverse :: splitDotAux cs []
      else splitDotAux cs (c :: acc)

/-- JavaScript `s.split(".")`. -/
def jsSplitDot (s : String) : List String :=
  splitDotAux s.data []

/-- `getSourceValue(sourceType, source, marketData, indicators)`.
Returns `.ok none` where JavaScript returns `undefined` (or NaN, for a
non-numeric literal).  A `"price"` source with an `undefined` source
string throws in JavaScript (`source.split` on `undefined`), modelled as
`.error`. -/
def getSourceValue (sourceType source : Option String)
    (marketData : MarketData) (indicators : Indicators) :
    Except String (Option ℚ) :=
  match sourceType with
  | none => .ok none
  | some st =>
    if st = "indicator" then
      -- `indicators[source]?.value`; indexing with an undefined key
      -- simply misses.
      .ok (match source with
        | some s => (alookup indicators s).bind IndicatorResult.valueOpt
        | none => none)
    else if st = "price" then
      match source with
      | none => .error "Cannot read properties of undefined"
      | some s =>
          let parts := jsSplitDot s
          let symbol := parts.headD ""
          let field := parts.get? 1
          .ok (match alookup marketData symbol with
            | none => none
            | some symbolData =>
                if symbolData.history.length = 0 then none
                else
                  match symbolData.history.getLast? with
                  | none => none
                  | some latestCandle => field.bind latestCandle.fieldOpt)
    else if st = "value" then
      -- `parseFloat(source)`; `parseFloat(undefined)` is NaN.
      .ok (source.bind parseFloat)
    else .ok none

/-- `getPreviousSourceValue(sourceType, source, marketData, indicators)`:
one step back for each source kind; a literal value is its own previous
value. -/
def getPreviousSourceValue (sourceType source : Option String)
    (marketData : MarketData) (indicators : Indicators) :
    Except String (Option ℚ) :=
  match sourceType with
  | none => .ok none
  | some st =>
    if st = "indicator" then
      .ok (match source with
        | some s => (alookup indicators s).bind IndicatorResult.prevOpt
        | none => none)
    else if st = "price" then
      match source with
      | none => .error "Cannot read properties of undefined"
      | some s =>
          let parts := jsSplitDot s
          let symbol := parts.headD ""
          let field := parts.get? 1
          .ok (match alookup marketData symbol with
            | none => none
            | some symbolData =>
                if symbolData.history.length < 2 then none
                else
                  match symbolData.history.get? (symbolData.history.length - 2) with
                  | none => none
                  | some previousCandle => field.bind previousCandle.fieldOpt)
    else if st = "value" then .ok (source.bind parseFloat)
    else .ok none

/-- `evaluateCrossover(settings, marketData, indicators)`: resolve the
current and previous values of both sources (in source order, so a
throwing resolution propagates), return `false` when any of the four is
unavailable, otherwise compare according to `direction`. -/
def evaluateCrossover (settings : BlockSettings)
    (marketData : MarketData) (indicators : Indicators) :
    Except String Bool := do
  let value1 ← getSourceValue settings.source1Type settings.source1 marketData indicators
  let value2 ← getSourceValue settings.source2Type settings.source2 marketData indicators
  let prevValue1 ← getPreviousSourceValue settings.source1Type settings.source1 marketData indicators
  let prevValue2 ← getPreviousSourceValue settings.source2Type settings.source2 marketData indicators
  match value1, value2, prevValue1, prevValue2 with
  | some v1, some v2, some p1, some p2 =>
      if settings.direction = some "above" ∨ settings.direction = some "bullish" then
        pure (decide (p1 ≤ p2) && decide (v1 > v2))
      else if settings.direction = some "below" ∨ settings.direction = some "bearish" then
        pure (decide (p1 ≥ p2) && decide (v1 < v2))
      else if settings.direction = some "any" then
        pure ((decide (p1 ≤ p2) && decide (v1 > v2)) ||
              (decide (p1 ≥ p2) && decide (v1 < v2)))
      else
        pure false
  | _, _, _, _ => pure false

/-- `evaluateThreshold(settings, marketData, indicators)`: one source
value compared against the numeric `value` setting; an unresolved source
yields `false`.  A comparison against an absent threshold (NaN in
JavaScript) is false for every operator. -/
def evaluateThreshold (settings : BlockSettings)
    (marketData : MarketData) (indicators : Indicators) :
    Except String Bool := do
  let sourceValue ← getSourceValue settings.sourceType settings.source marketData indicators
  match sourceValue with
  | none => pure false
  | some v =>
      match settings.value with
      | none => pure false
      | some threshold =>
          match settings.operator with
          | none => pure false
          | some op =>
              if op = "greater_than" ∨ op = ">" then pure (decide (v > threshold))
              else if op = "less_than" ∨ op = "<" then pure (decide (v < threshold))
              else if op = "equals" ∨ op = "==" ∨ op = "===" then pure (decide (v = threshold))
              else if op = "greater_than_equals" ∨ op = ">=" then pure (decide (v ≥ threshold))
              else if op = "less_than_equals" ∨ op = "<=" then pure (decide (v ≤ threshold))
              else pure false

/-- The `higher_high` loop: for `i` in `2 .. lookbackPeriod + 1`, break
once the history is shorter than `i`, fail once the current high does
not strictly exceed `history[length - i].high`. -/
def higherHighLoop (history : List Candle) (current : Candle)
    (lookbackPeriod : Nat) : Bool :=
  (List.range lookbackPeriod).all (fun k =>
    let i := k + 2
    if history.length < i then true
    else
      match history.get? (history.length - i) with
      | none => true
      | some c => decide (c.high < current.high))

/-- The `lower_low` loop, symmetric to `higherHighLoop`. -/
def lowerLowLoop (history : List Candle) (current : Candle)
    (lookbackPeriod : Nat) : Bool :=
  (List.range lookbackPeriod).all (fun k =>
    let i := k + 2
    if history.length < i then true
    else
      match history.get? (history.length - i) with
      | none => true
      | some c => decide (current.low < c.low))

/-- `evaluatePriceAction(settings, marketData, indicators)`: candlestick
pattern checks over the last one or two candles; fewer than two candles
yields `false`. -/
def evaluatePriceAction (settings : BlockSettings)
    (marketData : MarketData) (_indicators : Indicators) : Bool :=
  let lookbackPeriod := settings.lookbackPeriod.getD 1
  match settings.symbol with
  | none => false
  | some symbol =>
    match alookup marketData symbol with
    | none => false
    | some symbolData =>
      if symbolData.history.length < 2 then false
      else
        match symbolData.history.getLast?,
              symbolData.history.get? (symbolData.history.length - 2) with
        | some current, some previous =>
          match settings.patternType with
          | none => false
          | some patternType =>
          if patternType = "bullish_candle" then decide (current.close > current.open_)
          else if patternType = "bearish_candle" then decide (current.close < current.open_)
          else if patternType = "doji" then
              -- body < 10% of range; a zero range gives NaN or Infinity
              -- in JavaScript, making the comparison false.
              let bodySize := |current.close - current.open_|
              let totalRange := current.high - current.low
              if totalRange = 0 then false
              else decide (bodySize / totalRange < 1 / 10)
          else if patternType = "hammer" then
              if current.close ≤ current.open_ then false
              else
                let lowerWick := min current.open_ current.close - current.low
                let hammerBody := |current.close - current.open_|
                let upperWick := current.high - max current.open_ current.close
                decide (lowerWick > 2 * hammerBody) && decide (upperWick < hammerBody)
          else if patternType = "engulfing_bullish" then
              decide (current.close > current.open_) &&
              decide (previous.close < previous.open_) &&
              decide (current.open_ < previous.close) &&
              decide (current.close > previous.open_)
          else if patternType = "engulfing_bearish" then
              decide (current.close < current.open_) &&
              decide (previous.close > previous.open_) &&
              decide (current.open_ > previous.close) &&
              decide (current.close < previous.open_)
          else if patternType = "higher_high" then higherHighLoop symbolData.history current lookbackPeriod
          else if patternType = "lower_low" then lowerLowLoop symbolData.history current lookbackPeriod
          else if patternType = "higher_close" then decide (current.close > previous.close)
          else if patternType = "lower_close" then decide (current.close < previous.close)
          else false
        | _, _ => false

/-- `evaluateCondition(block, marketData, indicators)`: dispatch on the
condition subtype; an unknown subtype throws. -/
def evaluateCondition (block : Block) (marketData : MarketData)
    (indicators : Indicators) : Except String Bool :=
  if block.subtype = "crossover" then evaluateCrossover block.settings marketData indicators
  else if block.subtype = "threshold" then evaluateThreshold block.settings marketData indicators
  else if block.subtype = "price_action" then
    .ok (evaluatePriceAction block.settings marketData indicators)
  else .error ("Unknown condition type: " ++ block.subtype)

/-- A trading signal, the union of the shapes the four action generators
emit.  Fields a generator does not set are `none` (`undefined`). -/
structure Signal where
  action : String
  symbol : String
  orderType : Option String := none
  price : Option ℚ := none
  quantity : Option ℚ := none
  riskLevel : Option ℚ := none
  percentage : Option ℚ := none
  sltpType : Option String := none
  value : Option ℚ := none
  trailingType : Option String := none
  trailingValue : Option ℚ := none
  timestamp : Nat
deriving DecidableEq, Repr

/-- `executeBuyOrder(settings, marketData, indicators)`: resolve the
execution price (the current market price when no price is given or the
order is a market order; missing price data yields `null`), and emit a
buy signal.  A falsy `quantity` setting (absent or 0) leaves the signal
quantity `undefined`. -/
def executeBuyOrder (settings : BlockSettings) (marketData : MarketData)
    (now : Nat) : Option Signal :=
  let symbol := settings.symbol.getD "SPY"
  let orderType := settings.orderType.getD "market"
  let riskLevel := settings.riskLevel.getD (1 / 50)
  let priceFalsy : Bool :=
    match settings.price with
    | none => true
    | some p => decide (p = 0)
  let mkSignal (executionPrice : ℚ) : Signal :=
    { action := "buy"
      symbol := symbol
      orderType := some orderType
      price := some executionPrice
      quantity :=
        match settings.quantity with
        | none => none
        | some q => if q = 0 then none else some (jsParseInt q)
      riskLevel := some riskLevel
      timestamp := now }
  if priceFalsy || decide (orderType = "market") then
    match alookup marketData symbol with
    | none => none
    | some symbolData =>
        if symbolData.price = 0 then none
        else some (mkSignal symbolData.price)
  else
    some (mkSignal (settings.price.getD 0))

/-- `executeSellOrder(settings, marketData, indicators)`: like the buy
order, but carrying a `percentage` (setting divided by 100, default
100% → 1) and leaving the quantity `undefined` when no explicit quantity
setting is present — the share count is resolved by the paper-trading
service. -/
def executeSellOrder (settings : BlockSettings) (marketData : MarketData)
    (now : Nat) : Option Signal :=
  let symbol := settings.symbol.getD "SPY"
  let orderType := settings.orderType.getD "market"
  let percentage := settings.percentage.getD 100
  let priceFalsy : Bool :=
    match settings.price with
    | none => true
    | some p => decide (p = 0)
  -- `executionQuantity` starts as the quantity setting; the
  -- percentage branch only re-assigns `undefined` to `undefined`, and a
  -- falsy final value is emitted as `undefined`.
  let mkSignal (executionPrice : ℚ) : Signal :=
    { action := "sell"
      symbol := symbol
      orderType := some orderType
      price := some executionPrice
      quantity :=
        match settings.quantity with
        | none => none
        | some q => if q = 0 then none else some (jsParseInt q)
      percentage := some (percentage / 100)
      timestamp := now }
  if priceFalsy || decide (orderType = "market") then
    match alookup marketData symbol with
    | none => none
    | some symbolData =>
        if symbolData.price = 0 then none
        else some (mkSignal symbolData.price)
  else
    some (mkSignal (settings.price.getD 0))

/-- `executeStopLoss(settings, marketData, indicators)`: a descriptive
signal capturing the trigger parameters and the current price; it is not
an execution. -/
def executeStopLoss (settings : BlockSettings) (marketData : MarketData)
    (now : Nat) : Option Signal :=
  let symbol := settings.symbol.getD "SPY"
  match alookup marketData symbol with
  | none => none
  | some symbolData =>
      if symbolData.price = 0 then none
      else
        some { action := "stop_loss"
               symbol := symbol
               sltpType := some (settings.sltpType.getD "price")
               value := settings.value
               price := some symbolData.price
               trailingType := some (settings.trailingType.getD "none")
               trailingValue := some (jsOrQ settings.trailingValue 0)
               timestamp := now }

/-- `executeTakeProfit(settings, marketData, indicators)`: the
take-profit analogue of `executeStopLoss`. -/
def executeTakeProfit (settings : BlockSettings) (marketData : MarketData)
    (now : Nat) : Option Signal :=
  let symbol := settings.symbol.getD "SPY"
  match alookup marketData symbol with
  | none => none
  | some symbolData =>
      if symbolData.price = 0 then none
      else
        some { action := "take_profit"
               symbol := symbol
               sltpType := some (settings.sltpType.getD "price")
               value := settings.value
               price := some symbolData.price
               timestamp := now }

/-- `executeAction(block, marketData, indicators)`: dispatch on the
action subtype; an unknown subtype is logged and yields `null`. -/
def executeAction (block : Block) (marketData : MarketData) (now : Nat) :
    Option Signal :=
  if block.subtype = "buy" then executeBuyOrder block.settings marketData now
  else if block.subtype = "sell" then executeSellOrder block.settings marketData now
  else if block.subtype = "stop_loss" then executeStopLoss block.settings marketData now
  else if block.subtype = "take_profit" then executeTakeProfit block.settings marketData now
  else none

/-- An open position within a session. -/
structure Position where
  symbol : String
  quantity : ℚ
  averageCost : ℚ
  currentPrice : ℚ
  openTime : Nat
  lastUpdated : Nat
deriving DecidableEq, Repr

/-- One immutable transaction log entry; `profitLoss` is present only on
sells. -/
structure Transaction where
  time : Nat
  type : String
  symbol : String
  quantity : ℚ
  price : ℚ
  total : ℚ
  profitLoss : Option ℚ := none
deriving DecidableEq, Repr

/-- One `session.errors` entry. -/
structure SessionError where
  time : Nat
  message : String
deriving DecidableEq, Repr

/-- The `session.metrics` record. -/
structure Metrics where
  totalPnL : ℚ
  percentReturn : ℚ
  totalTrades : Nat
  winningTrades : Nat
  losingTrades : Nat
  winRate : ℚ
deriving DecidableEq, Repr

/-- The `session.settings` record. -/
structure SessionSettings where
  symbols : List String
  timePeriod : String
  autoRun : Bool
  riskPerTrade : ℚ
deriving DecidableEq, Repr

/-- A paper-trading session, the aggregate root held in the session map. -/
structure Session where
  id : String
  userId : String
  strategyId : String
  strategy : Strategy
  status : String
  startTime : Nat
  endTime : Option Nat := none
  initialCapital : ℚ
  currentCapital : ℚ
  cashBalance : ℚ
  positions : List Position
  transactions : List Transaction
  metrics : Metrics
  settings : SessionSettings
  lastUpdated : Nat
  errors : List SessionError
deriving DecidableEq, Repr

/-- The in-memory `paperTradingSessions` map. -/
abbrev Store := List (String × Session)

/-- The options object accepted by `createSession`. -/
structure SessionOptions where
  initialCapital : Option ℚ := none
  symbols : Option (List String) := none
  timePeriod : Option String := none
  autoRun : Option Bool := none
  riskPerTrade : Option ℚ := none
deriving DecidableEq, Repr

/-- One step of the first `processStrategy` loop: evaluate an indicator
block into the accumulated `indicators` map, pass every other block
through. -/
def indicatorStep (marketData : MarketData) (acc : Indicators)
    (block : Block) : Except String Indicators :=
  if block.type = "indicator" then do
    let indicatorResult ← applyIndicator block marketData
    pure (aset acc block.id indicatorResult)
  else
    pure acc

/-- Accumulate one signal per action block onto `sacc` (the inner loop
fired when a condition holds). -/
def fireActions (strategy : Strategy) (marketData : MarketData) (now : Nat)
    (sacc : List Signal) : List Signal :=
  (strategy.blocks.filter (fun b => b.type = "action")).foldl
    (fun sacc actionBlock =>
      match executeAction actionBlock marketData now with
      | some signal => sacc ++ [signal]
      | none => sacc) sacc

/-- One step of the second `processStrategy` loop: evaluate a condition
block and, when it holds, fire every action block of the strategy. -/
def conditionStep (strategy : Strategy) (marketData : MarketData) (now : Nat)
    (indicators : Indicators) (acc : List Signal) (block : Block) :
    Except String (List Signal) :=
  if block.type = "condition" then do
    let conditionResult ← evaluateCondition block marketData indicators
    if conditionResult then
      pure (fireActions strategy marketData now acc)
    else
      pure acc
  else
    pure acc

/-- The exception-throwing body of `processStrategy`: first every
indicator block is evaluated into the `indicators` map keyed by block
id; then every condition block is evaluated, and each condition that
holds emits one signal from every action block of the strategy. -/
def processStrategyE (strategy : Strategy) (marketData : MarketData)
    (now : Nat) : Except String (List Signal × Indicators) := do
  let indicators ← strategy.blocks.foldlM (indicatorStep marketData) ([] : Indicators)
  let signals ← strategy.blocks.foldlM
    (conditionStep strategy marketData now indicators) ([] : List Signal)
  pure (signals, indicators)

/-- `processStrategy(strategy, marketData)`: any exception inside the
body is caught and the run degrades to no signals and no indicators. -/
def processStrategy (strategy : Strategy) (marketData : MarketData)
    (now : Nat) : List Signal × Indicators :=
  match processStrategyE strategy marketData now with
  | .ok r => r
  | .error _ => ([], [])

/-- `price || marketData[symbol]?.price || 0`: the execution price of a
signal. -/
def resolveExecutionPrice (signal : Signal) (marketData : MarketData) : ℚ :=
  jsOrQ signal.price (jsOrQ ((alookup marketData signal.symbol).map SymbolData.price) 0)

/-- Quantity resolution of `executeSignals`: an explicit truthy signal
quantity wins; otherwise
`Math.floor(cashBalance × (riskLevel || riskPerTrade) / executionPrice)`. -/
def resolveTradeQuantity (session : Session) (signal : Signal)
    (executionPrice : ℚ) : ℚ :=
  jsOrQ signal.quantity
    ((Rat.floor (session.cashBalance *
        jsOrQ signal.riskLevel session.settings.riskPerTrade / executionPrice) : ℤ) : ℚ)

/-- The body of the `executeSignals` loop for one signal: price and
funds/inventory checks record errors and skip the signal; buys merge
into an existing position at the quantity-weighted average cost or
create a new position; sells shrink or remove the position and log the
realised profit; any other action falls through every branch and leaves
the session untouched. -/
def applySignal (session : Session) (signal : Signal)
    (marketData : MarketData) (now : Nat) : Session :=
  let symbol := signal.symbol
  let executionPrice := resolveExecutionPrice signal marketData
  if executionPrice ≤ 0 then
    { session with errors := session.errors ++
        [{ time := now
           message := "Cannot execute " ++ signal.action ++ " for " ++ symbol ++
             " with invalid price: " ++ toString executionPrice }] }
  else
    let tradeQuantity := resolveTradeQuantity session signal executionPrice
    if signal.action = "buy" ∨ signal.action = "long" then
      let cost := executionPrice * tradeQuantity
      if cost > session.cashBalance then
        { session with errors := session.errors ++
            [{ time := now
               message := "Insufficient funds to buy " ++ toString tradeQuantity ++
                 " shares of " ++ symbol ++ " at " ++ toString executionPrice }] }
      else
        let positions :=
          match session.positions.find? (fun p => p.symbol == symbol) with
          | some _ =>
              -- average down the first matching position
              updateFirst (fun p => p.symbol == symbol)
                (fun p =>
                  let totalShares := p.quantity + tradeQuantity
                  let totalCost := p.averageCost * p.quantity + executionPrice * tradeQuantity
                  { p with averageCost := totalCost / totalShares
                           quantity := totalShares
                           lastUpdated := now })
                session.positions
          | none =>
              session.positions ++
                [{ symbol := symbol
                   quantity := tradeQuantity
                   averageCost := executionPrice
                   currentPrice := executionPrice
                   openTime := now
                   lastUpdated := now }]
        { session with
            positions := positions
            cashBalance := session.cashBalance - cost
            transactions := session.transactions ++
              [{ time := now, type := "buy", symbol := symbol
                 quantity := tradeQuantity, price := executionPrice
                 total := cost }] }
    else if signal.action = "sell" ∨ signal.action = "short" then
      match session.positions.find? (fun p => p.symbol == symbol) with
      | none =>
          { session with errors := session.errors ++
              [{ time := now
                 message := "Cannot sell " ++ symbol ++ " - no position found" }] }
      | some position =>
          if position.quantity < tradeQuantity then
            { session with errors := session.errors ++
                [{ time := now
                   message := "Cannot sell " ++ toString tradeQuantity ++
                     " shares of " ++ symbol ++ " - only have " ++
                     toString position.quantity }] }
          else
            let saleValue := executionPrice * tradeQuantity
            let profitLoss := (executionPrice - position.averageCost) * tradeQuantity
            let positions :=
              if position.quantity - tradeQuantity ≤ 0 then
                removeFirst (fun p => p.symbol == symbol) session.positions
              else
                updateFirst (fun p => p.symbol == symbol)
                  (fun p => { p with quantity := p.quantity - tradeQuantity
                                     lastUpdated := now })
                  session.positions
            { session with
                positions := positions
                cashBalance := session.cashBalance + saleValue
                transactions := session.transactions ++
                  [{ time := now, type := "sell", symbol := symbol
                     quantity := tradeQuantity, price := executionPrice
                     total := saleValue, profitLoss := some profitLoss }] }
    else
      session

/-- `executeSignals(session, signals, marketData)`: apply the signals in
order, each against the session state the previous ones produced. -/
def executeSignals (session : Session) (signals : List Signal)
    (marketData : MarketData) (now : Nat) : Session :=
  signals.foldl (fun s signal => applySignal s signal marketData now) session

/-- `updatePositions(session, marketData)`: mark to market — refresh
`currentPrice` and `lastUpdated` of every position whose symbol has a
truthy price in the market data. -/
def updatePositions (session : Session) (marketData : MarketData)
    (now : Nat) : Session :=
  { session with positions := session.positions.map (fun position =>
      match alookup marketData position.symbol with
      | none => position
      | some symbolData =>
          if symbolData.price = 0 then position
          else { position with currentPrice := symbolData.price
                               lastUpdated := now }) }

/-- `updateMetrics(session)`: recompute `currentCapital` and the metric
record from cash, positions and the sell transactions. -/
def updateMetrics (session : Session) : Session :=
  let portfolioValue := session.cashBalance +
    (session.positions.map (fun p => p.currentPrice * p.quantity)).sum
  let totalPnL := portfolioValue - session.initialCapital
  let percentReturn := totalPnL / session.initialCapital * 100
  let completedTrades := session.transactions.filter (fun t => t.type == "sell")
  let winningTrades := completedTrades.filter (fun t =>
    match t.profitLoss with
    | some pl => decide (pl > 0)
    | none => false)
  let losingTrades := completedTrades.filter (fun t =>
    match t.profitLoss with
    | some pl => decide (pl ≤ 0)
    | none => false)
  { session with
      currentCapital := portfolioValue
      metrics :=
        { totalPnL := totalPnL
          percentReturn := percentReturn
          totalTrades := completedTrades.length
          winningTrades := winningTrades.length
          losingTrades := losingTrades.length
          winRate :=
            if completedTrades.length > 0 then
              (winningTrades.length : ℚ) / (completedTrades.length : ℚ) * 100
            else 0 } }

/-- `createSession(userId, strategyId, options)`:  the strategy fetch is
modelled by an optional `strategy` argument (`none` for a missing
document); it must belong to the requesting user.  The session starts
active with the option-or-default capital and settings and is stored
under `userId-strategyId-now`. -/
def createSession (store : Store) (userId strategyId : String)
    (strategy : Option Strategy) (options : SessionOptions) (now : Nat) :
    Store × Except String Session :=
  match strategy with
  | none => (store, .error "Strategy not found")
  | some strat =>
      if strat.user ≠ userId then
        (store, .error "Not authorized to access this strategy")
      else
        let sessionId := userId ++ "-" ++ strategyId ++ "-" ++ toString now
        let session : Session :=
          { id := sessionId
            userId := userId
            strategyId := strategyId
            strategy := strat
            status := "active"
            startTime := now
            initialCapital := jsOrQ options.initialCapital 10000
            currentCapital := jsOrQ options.initialCapital 10000
            cashBalance := jsOrQ options.initialCapital 10000
            positions := []
            transactions := []
            metrics :=
              { totalPnL := 0, percentReturn := 0, totalTrades := 0
                winningTrades := 0, losingTrades := 0, winRate := 0 }
            settings :=
              { symbols := options.symbols.getD (strat.symbols.getD ["SPY"])
                timePeriod := jsOrStr options.timePeriod "1d"
                autoRun := options.autoRun.getD false
                riskPerTrade := jsOrQ options.riskPerTrade (1 / 50) }
            lastUpdated := now
            errors := [] }
        (aset store sessionId session, .ok session)

/-- `getSession(sessionId, userId)`: read access, requiring ownership. -/
def getSession (store : Store) (sessionId userId : String) :
    Except String Session :=
  match alookup store sessionId with
  | none => .error "Paper trading session not found"
  | some session =>
      if session.userId ≠ userId then
        .error "Not authorized to access this session"
      else
        .ok session

/-- `getUserSessions(userId)`. -/
def getUserSessions (store : Store) (userId : String) : List Session :=
  (store.map (·.2)).filter (fun s => s.userId == userId)

/-- `updateSession(sessionId, marketData)` of the paper-trading service:
process the strategy into signals, execute them, mark to market, update
the metrics and the `lastUpdated` stamp.  The function performs no
status or ownership check.  The body after the session fetch is total
(every exception of strategy processing is already caught inside
`processStrategy`), so the service's inner catch never fires in the
model. -/
def updateSession (store : Store) (sessionId : String)
    (marketData : MarketData) (now : Nat) : Store × Except String Session :=
  match alookup store sessionId with
  | none => (store, .error "Paper trading session not found")
  | some session =>
      let processed := processStrategy session.strategy marketData now
      let s1 :=
        if processed.1.length > 0 then
          executeSignals session processed.1 marketData now
        else session
      let s2 := updatePositions s1 marketData now
      let s3 := updateMetrics s2
      let s4 := { s3 with lastUpdated := now }
      (aset store sessionId s4, .ok s4)

/-- The `PUT /api/paper-trading/:id/update` route handler: it first
fetches the session as the requesting user — failing with the
authorization error on a foreign session — and only then runs the
service-level update.  (The market-data fetch between the two steps is
an external collaborator and is modelled by the `marketData` argument.) -/
def updateSessionController (store : Store) (sessionId userId : String)
    (marketData : MarketData) (now : Nat) : Store × Except String Session :=
  match getSession store sessionId userId with
  | .error e => (store, .error e)
  | .ok _ => updateSession store sessionId marketData now

/-- `stopSession(sessionId, userId)`: requires ownership, then marks the
session stopped and stamps `endTime` with the current time —
unconditionally, also when the session is already stopped. -/
def stopSession (store : Store) (sessionId userId : String) (now : Nat) :
    Store × Except String Session :=
  match alookup store sessionId with
  | none => (store, .error "Paper trading session not found")
  | some session =>
      if session.userId ≠ userId then
        (store, .error "Not authorized to stop this session")
      else
        let stopped := { session with status := "stopped", endTime := some now }
        (aset store sessionId stopped, .ok stopped)

/-- `deleteSession(sessionId, userId)`: `false` for a missing session,
an authorization error for a foreign one, otherwise remove it. -/
def deleteSession (store : Store) (sessionId userId : String) :
    Store × Except String Bool :=
  match alookup store sessionId with
  | none => (store, .ok false)
  | some session =>
      if session.userId ≠ userId then
        (store, .error "Not authorized to delete this session")
      else
        (aremove store sessionId, .ok true)

/-! ### Invariants and reachability

The nonnegativity analysis of positions and cash.  The code itself puts
no lower bound on explicit quantity or risk settings, so the invariant
is stated for strategies and options whose numeric trade settings are
nonnegative — the shape every strategy built through the block editor
has. -/

/-- A block whose explicit `quantity` and `riskLevel` settings, if any,
are nonnegative. -/
def actionSettingsOK (b : Block) : Prop :=
  (∀ q, b.settings.quantity = some q → 0 ≤ q) ∧
  (∀ r, b.settings.riskLevel = some r → 0 ≤ r)

/-- Every block of the strategy has nonnegative trade settings. -/
def strategyOK (s : Strategy) : Prop := ∀ b ∈ s.blocks, actionSettingsOK b

/-- Session options with nonnegative capital and risk. -/
def optionsOK (o : SessionOptions) : Prop :=
  (∀ c, o.initialCapital = some c → 0 ≤ c) ∧
  (∀ r, o.riskPerTrade = some r → 0 ≤ r)

/-- A signal whose explicit quantity and risk level, if any, are
nonnegative. -/
def signalOK (sig : Signal) : Prop :=
  (∀ q, sig.quantity = some q → 0 ≤ q) ∧
  (∀ r, sig.riskLevel = some r → 0 ≤ r)

/-- The session invariant: nonnegative position quantities, nonnegative
cash, nonnegative risk-per-trade, and a strategy snapshot with
nonnegative trade settings. -/
def sessionOK (s : Session) : Prop :=
  (∀ p ∈ s.positions, 0 ≤ p.quantity) ∧
  0 ≤ s.cashBalance ∧
  0 ≤ s.settings.riskPerTrade ∧
  strategyOK s.strategy

/-- Every session held in the store satisfies the session invariant. -/
def storeOK (st : Store) : Prop := ∀ kv ∈ st, sessionOK kv.2

/-- The stores reachable through the session-manager operations from the
empty store, with creation restricted to nonnegative options and
strategies with nonnegative trade settings. -/
inductive Reachable : Store → Prop where
  | empty : Reachable []
  | create (st : Store) (userId strategyId : String) (strategy : Option Strategy)
      (options : SessionOptions) (now : Nat) (h : Reachable st)
      (hs : ∀ s, strategy = some s → strategyOK s) (ho : optionsOK options) :
      Reachable (createSession st userId strategyId strategy options now).1
  | update (st : Store) (sessionId : String) (marketData : MarketData) (now : Nat)
      (h : Reachable st) : Reachable (updateSession st sessionId marketData now).1
  | stop (st : Store) (sessionId userId : String) (now : Nat) (h : Reachable st) :
      Reachable (stopSession st sessionId userId now).1
  | delete (st : Store) (sessionId userId : String) (h : Reachable st) :
      Reachable (deleteSession st sessionId userId).1

/-! ### Concrete inputs used by the witnesses and counterexamples -/

/-- A flat candle whose every price field is `c`. -/
def mkCandle (c : ℚ) : Candle :=
  { time := 0, open_ := c, high := c, low := c, close := c, volume := 0 }

/-- Closes 1..5, the SMA example history of the specification. -/
def smaExampleData : SymbolData :=
  { price := 5, timestamp := 0, history := [1, 2, 3, 4, 5].map mkCandle }

/-- SMA settings with period 3. -/
def smaExampleSettings : BlockSettings := { period := some 3 }

/-- A threshold condition that always holds: the literal 5 is greater
than 1. -/
def alwaysTrueCondition : Block :=
  { id := "c", type := "condition", subtype := "threshold",
    settings := { sourceType := some "value", source := some "5",
                  operator := some ">", value := some 1 } }

/-- A limit-buy action block: 10 shares of SPY at 100. -/
def limitBuyBlock : Block :=
  { id := "a", type := "action", subtype := "buy",
    settings := { symbol := some "SPY", orderType := some "limit",
                  price := some 100, quantity := some 10 } }

/-- A strategy that buys 10 SPY at 100 on every update cycle. -/
def alwaysBuyStrategy : Strategy :=
  { user := "u", blocks := [alwaysTrueCondition, limitBuyBlock] }

/-- The store after creating a session for `alwaysBuyStrategy` at time 0
and stopping it at time 2: one stopped session with 10000 in cash. -/
def stoppedStore : Store :=
  (stopSession (createSession [] "u" "st" (some alwaysBuyStrategy) {} 0).1
    "u-st-0" "u" 2).1

/-- A limit-buy action block with no explicit quantity: the share count
is resolved from cash and risk at execution time. -/
def riskBuyBlock : Block :=
  { id := "a", type := "action", subtype := "buy",
    settings := { symbol := some "SPY", orderType := some "limit",
                  price := some 10 } }

/-- A strategy whose buy resolves its quantity from cash and risk. -/
def riskBuyStrategy : Strategy :=
  { user := "u", blocks := [alwaysTrueCondition, riskBuyBlock] }

/-- The store after creating a 100-capital session for
`riskBuyStrategy` at time 0: with the default 2% risk per trade the
risk amount is 2, so a buy at price 10 resolves to
`Math.floor(2 / 10) = 0` shares. -/
def smallCapitalStore : Store :=
  (createSession [] "u" "st" (some riskBuyStrategy)
    { initialCapital := some 100 } 0).1

/-- `smallCapitalStore` after one update cycle at time 1. -/
def zeroQuantityStore : Store :=
  (updateSession smallCapitalStore "u-st-0" [] 1).1

/-- The (fresh, active) session of `smallCapitalStore`. -/
def smallCapitalSession : Session :=
  { id := "u-st-0", userId := "u", strategyId := "st"
    strategy := riskBuyStrategy, status := "active", startTime := 0
    initialCapital := 100, currentCapital := 100, cashBalance := 100
    positions := [], transactions := []
    metrics := { totalPnL := 0, percentReturn := 0, totalTrades := 0
                 winningTrades := 0, losingTrades := 0, winRate := 0 }
    settings := { symbols := ["SPY"], timePeriod := "1d", autoRun := false
                  riskPerTrade := 1 / 50 }
    lastUpdated := 0, errors := [] }

/-- A fresh 10000-capital session used by the buy examples. -/
def buyExampleSession : Session :=
  { smallCapitalSession with strategy := alwaysBuyStrategy
                             initialCapital := 10000
                             currentCapital := 10000
                             cashBalance := 10000 }

/-- An explicit buy signal: `q` shares at price `p`. -/
def mkBuySignal (q p : ℚ) : Signal :=
  { action := "buy", symbol := "SPY", price := some p, quantity := some q,
    timestamp := 0 }

/-- Market data for the crossover example: source 1 (`A.close`) moves
9 → 10 while source 2 (`B.close`) moves 10 → 9. -/
def crossoverExampleData : MarketData :=
  [("A", { price := 10, timestamp := 0, history := [mkCandle 9, mkCandle 10] }),
   ("B", { price := 9, timestamp := 0, history := [mkCandle 10, mkCandle 9] })]

/-- Crossover settings over the example price sources with the given
direction. -/
def crossoverExampleSettings (dir : String) : BlockSettings :=
  { direction := some dir,
    source1Type := some "price", source1 := some "A.close",
    source2Type := some "price", source2 := some "B.close" }

/-- Market data with a single symbol SPY priced at 10. -/
def spyMarketData : MarketData :=
  [("SPY", { price := 10, timestamp := 0, history := [] })]

/-- Sell settings with a 50% percentage and no explicit quantity. -/
def sellHalfSettings : BlockSettings := { percentage := some 50 }

/-- A stop-loss signal as `executeStopLoss` emits it on `spyMarketData`. -/
def stopLossExampleSignal : Signal :=
  { action := "stop_loss", symbol := "SPY", sltpType := some "price",
    value := some 5, price := some 10, trailingType := some "none",
    trailingValue := some 0, timestamp := 0 }

/-- The session stored in `stoppedStore`, written out. -/
def stoppedSession : Session :=
  { id := "u-st-0", userId := "u", strategyId := "st"
    strategy := alwaysBuyStrategy, status := "stopped", startTime := 0
    endTime := some 2
    initialCapital := 10000, currentCapital := 10000, cashBalance := 10000
    positions := [], transactions := []
    metrics := { totalPnL := 0, percentReturn := 0, totalTrades := 0
                 winningTrades := 0, losingTrades := 0, winRate := 0 }
    settings := { symbols := ["SPY"], timePeriod := "1d", autoRun := false
                  riskPerTrade := 1 / 50 }
    lastUpdated := 0, errors := [] }

/-- The signal `limitBuyBlock` generates: buy 10 SPY at 100. -/
def buySignal10 (now : Nat) : Signal :=
  { action := "buy", symbol := "SPY", orderType := some "limit",
    price := some 100, quantity := some 10, riskLevel := some (1 / 50),
    timestamp := now }

/-- The signal `riskBuyBlock` generates: buy SPY at 10 with the quantity
left to the execution-time risk rule. -/
def riskBuySignal (now : Nat) : Signal :=
  { action := "buy", symbol := "SPY", orderType := some "limit",
    price := some 10, quantity := none, riskLevel := some (1 / 50),
    timestamp := now }

/-! ## Helper lemmas -/

/-- Splitting a list at the first element matched by `find?`:
`updateFirst` rewrites exactly that element and `removeFirst` drops it. -/
theorem find?_split {α : Type} (pred : α → Bool) (f : α → α) :
    ∀ (l : List α) (x : α), l.find? pred = some x →
      ∃ l1 l2, l = l1 ++ x :: l2 ∧ (∀ y ∈ l1, pred y = false) ∧
        updateFirst pred f l = l1 ++ f x :: l2 ∧
        removeFirst pred l = l1 ++ l2 := by
  intro l
  induction l with
  | nil => intro x hx; simp [List.find?] at hx
  | cons a as ih =>
      intro x hx
      by_cases ha : pred a = true
      · refine ⟨[], as, ?_, ?_, ?_, ?_⟩ <;>
          simp_all [List.find?_cons_of_pos, updateFirst, removeFirst]
      · have ha' : pred a = false := by simpa using ha
        rw [List.find?_cons_of_neg _ (by simp [ha'])] at hx
        obtain ⟨l1, l2, hsplit, hl1, hupd, hrem⟩ := ih x hx
        refine ⟨a :: l1, l2, by simp [hsplit], ?_, ?_, ?_⟩
        · intro y hy
          rcases List.mem_cons.mp hy with hy | hy
          · rw [hy]; exact ha'
          · exact hl1 y hy
        · simp [updateFirst, ha', hupd]
        · simp [removeFirst, ha', hrem]

/-- Membership after `updateFirst`: an element was already there or is
the image of one. -/
theorem mem_updateFirst {α : Type} (pred : α → Bool) (f : α → α) :
    ∀ (l : List α) (x : α), x ∈ updateFirst pred f l →
      x ∈ l ∨ ∃ y ∈ l, x = f y := by
  intro l
  induction l with
  | nil => intro x hx; simp [updateFirst] at hx
  | cons a as ih =>
      intro x hx
      by_cases ha : pred a = true
      · simp only [updateFirst, ha, if_true] at hx
        rcases List.mem_cons.mp hx with hx | hx
        · exact Or.inr ⟨a, by simp, hx⟩
        · exact Or.inl (by simp [hx])
      · have ha' : pred a = false := by simpa using ha
        simp only [updateFirst, ha', Bool.false_eq_true, if_false] at hx
        rcases List.mem_cons.mp hx with hx | hx
        · exact Or.inl (by simp [hx])
        · rcases ih x hx with h | ⟨y, hy, hxy⟩
          · exact Or.inl (by simp [h])
          · exact Or.inr ⟨y, by simp [hy], hxy⟩

/-- `removeFirst` only ever drops elements. -/
theorem mem_removeFirst {α : Type} (pred : α → Bool) :
    ∀ (l : List α) (x : α), x ∈ removeFirst pred l → x ∈ l := by
  intro l
  induction l with
  | nil => intro x hx; simp [removeFirst] at hx
  | cons a as ih =>
      intro x hx
      by_cases ha : pred a = true
      · simp only [removeFirst, ha, if_true] at hx
        exact List.mem_cons_of_mem a hx
      · have ha' : pred a = false := by simpa using ha
        simp only [removeFirst, ha', Bool.false_eq_true, if_false] at hx
        rcases List.mem_cons.mp hx with hx | hx
        · rw [hx]; exact List.mem_cons_self a as
        · exact List.mem_cons_of_mem a (ih x hx)

/-- `alookup` on a cons cell. -/
theorem alookup_cons {α : Type} (a : String × α) (as : List (String × α)) (k : String) :
    alookup (a :: as) k = if a.1 == k then some a.2 else alookup as k := by
  by_cases h : (a.1 == k) = true
  · simp [alookup, List.find?_cons_of_pos, h]
  · have h' : (a.1 == k) = false := by simpa using h
    simp [alookup, List.find?_cons_of_neg, h']

/-- `alookup` skips over a segment with no matching key. -/
theorem alookup_append_of_none {α : Type} (k : String) :
    ∀ (l1 rest : List (String × α)), (∀ y ∈ l1, (y.1 == k) = false) →
      alookup (l1 ++ rest) k = alookup rest k := by
  intro l1
  induction l1 with
  | nil => intro rest _; rfl
  | cons b bs ih =>
      intro rest h
      have hb := h b (List.mem_cons_self b bs)
      rw [List.cons_append, alookup_cons]
      simp only [hb, Bool.false_eq_true, if_false]
      exact ih rest (fun y hy => h y (List.mem_cons_of_mem b hy))

/-- Looking up the key just written by `aset` yields the written value. -/
theorem alookup_aset {α : Type} (m : List (String × α)) (k : String) (v : α) :
    alookup (aset m k v) k = some v := by
  unfold aset
  by_cases hs : (List.find? (fun kv => kv.1 == k) m).isSome
  · rw [if_pos hs]
    obtain ⟨x, hx⟩ := Option.isSome_iff_exists.mp hs
    obtain ⟨l1, l2, _, hl1, hupd, _⟩ :=
      find?_split (fun kv => kv.1 == k) (fun kv => (kv.1, v)) m x hx
    have hx1 : (x.1 == k) = true := by simpa using List.find?_some hx
    rw [hupd, alookup_append_of_none k l1 _ hl1, alookup_cons]
    simp [hx1]
  · rw [if_neg hs]
    have hnone : List.find? (fun kv => kv.1 == k) m = none := by
      cases hfind : List.find? (fun kv => kv.1 == k) m with
      | none => rfl
      | some x => rw [hfind] at hs; simp at hs
    have hall : ∀ y ∈ m, (y.1 == k) = false := by
      intro y hy
      have := List.find?_eq_none.mp hnone y hy
      simpa using this
    rw [alookup_append_of_none k m _ hall, alookup_cons]
    simp

/-- A successful `alookup` result is the value of some stored binding. -/
theorem alookup_mem {α : Type} (m : List (String × α)) (k : String) (v : α)
    (h : alookup m k = some v) : ∃ kv ∈ m, kv.2 = v := by
  unfold alookup at h
  cases hfind : List.find? (fun kv => kv.1 == k) m with
  | none => rw [hfind] at h; simp at h
  | some kv =>
      rw [hfind] at h
      simp only [Option.map_some'] at h
      exact ⟨kv, List.mem_of_find?_eq_some hfind, Option.some.inj h⟩

/-- Membership after `aset`: old binding or the written value. -/
theorem mem_aset {α : Type} (m : List (String × α)) (k : String) (v : α)
    (kv : String × α) (h : kv ∈ aset m k v) : kv ∈ m ∨ kv.2 = v := by
  unfold aset at h
  by_cases hs : (List.find? (fun kv => kv.1 == k) m).isSome
  · rw [if_pos hs] at h
    rcases mem_updateFirst _ _ _ kv h with hmem | ⟨y, _, hky⟩
    · exact Or.inl hmem
    · right; rw [hky]
  · rw [if_neg hs] at h
    rcases List.mem_append.mp h with hmem | hmem
    · exact Or.inl hmem
    · right
      have : kv = (k, v) := by simpa using hmem
      rw [this]

/-- `Rat.floor` of a nonnegative rational is nonnegative. -/
theorem ratFloor_nonneg (q : ℚ) (h : 0 ≤ q) : (0 : ℤ) ≤ Rat.floor q :=
  Rat.le_floor.mpr (by exact_mod_cast h)

/-- Pinning down `Rat.floor` by the usual bracketing. -/
theorem ratFloor_eq (q : ℚ) (n : ℤ) (h1 : (n : ℚ) ≤ q) (h2 : q < (n : ℚ) + 1) :
    Rat.floor q = n := by
  have ha : n ≤ Rat.floor q := Rat.le_floor.mpr h1
  have hb : ¬ (n + 1 ≤ Rat.floor q) := by
    intro hc
    have := Rat.le_floor.mp hc
    push_cast at this
    linarith
  omega

/-- `parseInt` keeps nonnegative numbers nonnegative. -/
theorem jsParseInt_nonneg (q : ℚ) (h : 0 ≤ q) : 0 ≤ jsParseInt q := by
  unfold jsParseInt
  rw [if_neg (not_lt.mpr h)]
  exact_mod_cast ratFloor_nonneg q h

/-- `x || d` is nonnegative when both alternatives are. -/
theorem jsOrQ_nonneg (x : Option ℚ) (d : ℚ)
    (hx : ∀ v, x = some v → 0 ≤ v) (hd : 0 ≤ d) : 0 ≤ jsOrQ x d := by
  unfold jsOrQ
  cases hxe : x with
  | none => exact hd
  | some v =>
      dsimp only
      by_cases hv : v = 0
      · rw [if_pos hv]; exact hd
      · rw [if_neg hv]; exact hx v hxe

/-! ## Claim theorems -/

/-- Claim C10: a signal with a positive resolved execution price whose
action is none of buy/long/sell/short (in particular the stop-loss and
take-profit signals the action generator emits) is silently dropped:
`executeSignals`' per-signal body leaves the session completely
unchanged — no position, cash, transaction or error change. -/
theorem unknownActionSignalLeavesSessionUnchanged (session : Session) (signal : Signal)
    (marketData : MarketData) (now : Nat)
    (hp : 0 < resolveExecutionPrice signal marketData)
    (hb : signal.action ≠ "buy") (hl : signal.action ≠ "long")
    (hs : signal.action ≠ "sell") (hsh : signal.action ≠ "short") :
    applySignal session signal marketData now = session := by
  simp only [applySignal]
  rw [if_neg (not_le.mpr hp), if_neg (by simp [hb, hl]), if_neg (by simp [hs, hsh])]

/-- Claim C10 witness: a concrete stop-loss signal (as emitted by
`executeStopLoss`) leaves a concrete session untouched. -/
theorem unknownActionSignalLeavesSessionUnchanged_witness :
    executeStopLoss { symbol := some "SPY", value := some 5 } spyMarketData 0 =
        some stopLossExampleSignal
    ∧ applySignal smallCapitalSession stopLossExampleSignal spyMarketData 0 =
        smallCapitalSession := by
  constructor
  · rfl
  · exact unknownActionSignalLeavesSessionUnchanged smallCapitalSession
      stopLossExampleSignal spyMarketData 0
      (by norm_num [resolveExecutionPrice, stopLossExampleSignal, jsOrQ])
      (by decide) (by decide) (by decide) (by decide)

/-- Claim C3: a buy signal whose cost exceeds the cash balance (at a
positive execution price) records exactly one error entry, changes no
position, cash or transaction, and the remaining signals of the cycle
are still processed from that state. -/
theorem insufficientFundsBuyRecordsErrorAndSkips (session : Session) (signal : Signal)
    (marketData : MarketData) (now : Nat) (rest : List Signal)
    (hact : signal.action = "buy" ∨ signal.action = "long")
    (hp : 0 < resolveExecutionPrice signal marketData)
    (hcost : session.cashBalance <
      resolveExecutionPrice signal marketData *
        resolveTradeQuantity session signal (resolveExecutionPrice signal marketData)) :
    (applySignal session signal marketData now).positions = session.positions
    ∧ (applySignal session signal marketData now).cashBalance = session.cashBalance
    ∧ (applySignal session signal marketData now).transactions = session.transactions
    ∧ (applySignal session signal marketData now).errors.length = session.errors.length + 1
    ∧ executeSignals session (signal :: rest) marketData now =
        executeSignals (applySignal session signal marketData now) rest marketData now := by
  refine ⟨?_, ?_, ?_, ?_, rfl⟩ <;>
    (simp only [applySignal]; rw [if_neg (not_le.mpr hp), if_pos hact, if_pos hcost]; try simp)

/-- Claim C3 witness: cash 100, attempted buy of 10 shares at 50. -/
theorem insufficientFundsBuyRecordsErrorAndSkips_witness :
    (applySignal { smallCapitalSession with cashBalance := 100 }
        (mkBuySignal 10 50) [] 7).positions = [] ∧
    (applySignal { smallCapitalSession with cashBalance := 100 }
        (mkBuySignal 10 50) [] 7).cashBalance = 100 ∧
    (applySignal { smallCapitalSession with cashBalance := 100 }
        (mkBuySignal 10 50) [] 7).transactions = [] ∧
    (applySignal { smallCapitalSession with cashBalance := 100 }
        (mkBuySignal 10 50) [] 7).errors.length = 1 := by
  have h := insufficientFundsBuyRecordsErrorAndSkips
    { smallCapitalSession with cashBalance := 100 } (mkBuySignal 10 50) [] 7 []
    (Or.inl rfl)
    (by norm_num [resolveExecutionPrice, mkBuySignal, jsOrQ, alookup])
    (by norm_num [resolveExecutionPrice, resolveTradeQuantity, mkBuySignal, jsOrQ,
          alookup, smallCapitalSession])
  exact ⟨h.1, h.2.1, h.2.2.1, h.2.2.2.1⟩

/-- Claim C2: an executable buy signal (positive price, cost within the
cash balance) decrements cash by exactly price × quantity, appends
exactly one buy transaction with that total, and either merges into the
existing position for the symbol at the quantity-weighted average cost
or creates a new position at the execution price. -/
theorem buySignalAppliesWeightedAverageCost (session : Session) (signal : Signal)
    (marketData : MarketData) (now : Nat)
    (hact : signal.action = "buy" ∨ signal.action = "long")
    (hp : 0 < resolveExecutionPrice signal marketData)
    (hcost : resolveExecutionPrice signal marketData *
        resolveTradeQuantity session signal (resolveExecutionPrice signal marketData) ≤
      session.cashBalance) :
    (applySignal session signal marketData now).cashBalance =
        session.cashBalance -
          resolveExecutionPrice signal marketData *
            resolveTradeQuantity session signal (resolveExecutionPrice signal marketData)
    ∧ (applySignal session signal marketData now).transactions =
        session.transactions ++
          [{ time := now, type := "buy", symbol := signal.symbol
             quantity := resolveTradeQuantity session signal
               (resolveExecutionPrice signal marketData)
             price := resolveExecutionPrice signal marketData
             total := resolveExecutionPrice signal marketData *
               resolveTradeQuantity session signal (resolveExecutionPrice signal marketData)
             profitLoss := none }]
    ∧ (session.positions.find? (fun p => p.symbol == signal.symbol) = none →
        (applySignal session signal marketData now).positions =
          session.positions ++
            [{ symbol := signal.symbol
               quantity := resolveTradeQuantity session signal
                 (resolveExecutionPrice signal marketData)
               averageCost := resolveExecutionPrice signal marketData
               currentPrice := resolveExecutionPrice signal marketData
               openTime := now, lastUpdated := now }])
    ∧ (∀ pos0, session.positions.find? (fun p => p.symbol == signal.symbol) = some pos0 →
        ∃ l1 l2, session.positions = l1 ++ pos0 :: l2 ∧
          (∀ y ∈ l1, (y.symbol == signal.symbol) = false) ∧
          (applySignal session signal marketData now).positions =
            l1 ++ { pos0 with
                    averageCost :=
                      (pos0.averageCost * pos0.quantity +
                        resolveExecutionPrice signal marketData *
                          resolveTradeQuantity session signal
                            (resolveExecutionPrice signal marketData)) /
                        (pos0.quantity +
                          resolveTradeQuantity session signal
                            (resolveExecutionPrice signal marketData))
                    quantity := pos0.quantity +
                      resolveTradeQuantity session signal
                        (resolveExecutionPrice signal marketData)
                    lastUpdated := now } :: l2) := by
  have hc' : ¬ (resolveExecutionPrice signal marketData *
      resolveTradeQuantity session signal (resolveExecutionPrice signal marketData) >
      session.cashBalance) := not_lt.mpr hcost
  refine ⟨?_, ?_, ?_, ?_⟩
  · simp only [applySignal]
    rw [if_neg (not_le.mpr hp), if_pos hact, if_neg hc']
  · simp only [applySignal]
    rw [if_neg (not_le.mpr hp), if_pos hact, if_neg hc']
  · intro hnone
    simp only [applySignal]
    rw [if_neg (not_le.mpr hp), if_pos hact, if_neg hc', hnone]
  · intro pos0 hpos0
    simp only [applySignal]
    rw [if_neg (not_le.mpr hp), if_pos hact, if_neg hc', hpos0]
    obtain ⟨l1, l2, hsplit, hl1, hupd, -⟩ :=
      find?_split (fun p => p.symbol == signal.symbol)
        (fun p =>
          { p with
              averageCost :=
                (p.averageCost * p.quantity +
                  resolveExecutionPrice signal marketData *
                    resolveTradeQuantity session signal
                      (resolveExecutionPrice signal marketData)) /
                  (p.quantity +
                    resolveTradeQuantity session signal
                      (resolveExecutionPrice signal marketData))
              quantity := p.quantity +
                resolveTradeQuantity session signal
                  (resolveExecutionPrice signal marketData)
              lastUpdated := now })
        session.positions pos0 hpos0
    exact ⟨l1, l2, hsplit, hl1, hupd⟩

/-- The concrete first buy of the specification example: 10 at 100 from
10000 cash. -/
theorem firstBuyEval : applySignal buyExampleSession (mkBuySignal 10 100) [] 0 =
    { buyExampleSession with
        positions := [{ symbol := "SPY", quantity := 10, averageCost := 100,
                        currentPrice := 100, openTime := 0, lastUpdated := 0 }]
        cashBalance := 9000
        transactions := [{ time := 0, type := "buy", symbol := "SPY",
                           quantity := 10, price := 100, total := 1000 }] } := by
  simp [applySignal, resolveExecutionPrice, resolveTradeQuantity, jsOrQ, alookup,
    List.find?, mkBuySignal, buyExampleSession, smallCapitalSession]
  norm_num

/-- The follow-up buy of 5 at 120 merging into the position. -/
theorem secondBuyEval : applySignal (applySignal buyExampleSession (mkBuySignal 10 100) [] 0)
    (mkBuySignal 5 120) [] 0 =
    { buyExampleSession with
        positions := [{ symbol := "SPY", quantity := 15, averageCost := 320 / 3,
                        currentPrice := 100, openTime := 0, lastUpdated := 0 }]
        cashBalance := 8400
        transactions := [{ time := 0, type := "buy", symbol := "SPY",
                           quantity := 10, price := 100, total := 1000 },
                         { time := 0, type := "buy", symbol := "SPY",
                           quantity := 5, price := 120, total := 600 }] } := by
  rw [firstBuyEval]
  simp [applySignal, resolveExecutionPrice, resolveTradeQuantity, jsOrQ, alookup,
    List.find?, mkBuySignal, buyExampleSession, smallCapitalSession, updateFirst]
  norm_num

/-- Claim C2 witness: the specification example, with both hypotheses
discharged at the concrete inputs. -/
theorem buySignalAppliesWeightedAverageCost_witness :
    (0 : ℚ) < resolveExecutionPrice (mkBuySignal 10 100) []
    ∧ resolveExecutionPrice (mkBuySignal 10 100) [] *
        resolveTradeQuantity buyExampleSession (mkBuySignal 10 100)
          (resolveExecutionPrice (mkBuySignal 10 100) []) ≤ buyExampleSession.cashBalance
    ∧ (applySignal buyExampleSession (mkBuySignal 10 100) [] 0).cashBalance = 9000
    ∧ (applySignal buyExampleSession (mkBuySignal 10 100) [] 0).positions =
        [{ symbol := "SPY", quantity := 10, averageCost := 100, currentPrice := 100,
           openTime := 0, lastUpdated := 0 }]
    ∧ (applySignal (applySignal buyExampleSession (mkBuySignal 10 100) [] 0)
        (mkBuySignal 5 120) [] 0).cashBalance = 8400
    ∧ (applySignal (applySignal buyExampleSession (mkBuySignal 10 100) [] 0)
        (mkBuySignal 5 120) [] 0).positions =
        [{ symbol := "SPY", quantity := 15, averageCost := 320 / 3, currentPrice := 100,
           openTime := 0, lastUpdated := 0 }] := by
  have hp1 : (0 : ℚ) < resolveExecutionPrice (mkBuySignal 10 100) [] := by
    norm_num [resolveExecutionPrice, mkBuySignal, jsOrQ, alookup]
  have hc1 : resolveExecutionPrice (mkBuySignal 10 100) [] *
      resolveTradeQuantity buyExampleSession (mkBuySignal 10 100)
        (resolveExecutionPrice (mkBuySignal 10 100) []) ≤ buyExampleSession.cashBalance := by
    norm_num [resolveExecutionPrice, resolveTradeQuantity, mkBuySignal, jsOrQ, alookup,
      buyExampleSession, smallCapitalSession]
  have h1 := buySignalAppliesWeightedAverageCost buyExampleSession (mkBuySignal 10 100) [] 0
    (Or.inl rfl) hp1 hc1
  have hp2 : (0 : ℚ) < resolveExecutionPrice (mkBuySignal 5 120) [] := by
    norm_num [resolveExecutionPrice, mkBuySignal, jsOrQ, alookup]
  have hc2 : resolveExecutionPrice (mkBuySignal 5 120) [] *
      resolveTradeQuantity (applySignal buyExampleSession (mkBuySignal 10 100) [] 0)
        (mkBuySignal 5 120) (resolveExecutionPrice (mkBuySignal 5 120) []) ≤
      (applySignal buyExampleSession (mkBuySignal 10 100) [] 0).cashBalance := by
    rw [firstBuyEval]
    norm_num [resolveExecutionPrice, resolveTradeQuantity, mkBuySignal, jsOrQ, alookup,
      buyExampleSession, smallCapitalSession]
  have h2 := buySignalAppliesWeightedAverageCost
    (applySignal buyExampleSession (mkBuySignal 10 100) [] 0) (mkBuySignal 5 120) [] 0
    (Or.inl rfl) hp2 hc2
  refine ⟨hp1, hc1, ?_, ?_, ?_, ?_⟩
  · rw [firstBuyEval]
  · rw [firstBuyEval]
  · rw [secondBuyEval]
  · rw [secondBuyEval]

/-- Claim C5: for a stored session owned by a different user, all three
mutating operations — the update-session controller, stop and delete —
return the untouched store together with their authorization error. -/
theorem mutatingOperationsRequireOwnership (store : Store) (sessionId userId : String)
    (s : Session) (marketData : MarketData) (now : Nat)
    (hfind : alookup store sessionId = some s) (hne : s.userId ≠ userId) :
    updateSessionController store sessionId userId marketData now =
        (store, .error "Not authorized to access this session")
    ∧ stopSession store sessionId userId now =
        (store, .error "Not authorized to stop this session")
    ∧ deleteSession store sessionId userId =
        (store, .error "Not authorized to delete this session") := by
  refine ⟨?_, ?_, ?_⟩ <;>
    simp [updateSessionController, getSession, stopSession, deleteSession, hfind, hne]

/-- Claim C5 witness: an intruder hitting the concrete one-session store. -/
theorem mutatingOperationsRequireOwnership_witness :
    updateSessionController smallCapitalStore "u-st-0" "intruder" [] 3 =
        (smallCapitalStore, .error "Not authorized to access this session")
    ∧ stopSession smallCapitalStore "u-st-0" "intruder" 3 =
        (smallCapitalStore, .error "Not authorized to stop this session")
    ∧ deleteSession smallCapitalStore "u-st-0" "intruder" =
        (smallCapitalStore, .error "Not authorized to delete this session") :=
  mutatingOperationsRequireOwnership smallCapitalStore "u-st-0" "intruder"
    smallCapitalSession [] 3 rfl (by decide)

/-- Claim C9 (amended): stopping an owned session succeeds and stamps
`status = "stopped"`, `endTime = now`; a second stop also succeeds and
keeps the status but RE-STAMPS `endTime` to the second call's time —
a second stop is not a complete no-op. -/
theorem doubleStopIsNoopOnStatusButRestampsEndTime (store : Store)
    (sessionId userId : String) (s : Session) (now1 now2 : Nat)
    (hfind : alookup store sessionId = some s) (hown : s.userId = userId) :
    ∃ s1, (stopSession store sessionId userId now1).2 = .ok s1 ∧
      s1.status = "stopped" ∧ s1.endTime = some now1 ∧
      ∃ s2, (stopSession (stopSession store sessionId userId now1).1
          sessionId userId now2).2 = .ok s2 ∧
        s2.status = "stopped" ∧ s2.endTime = some now2 := by
  have h1 : stopSession store sessionId userId now1 =
      (aset store sessionId { s with status := "stopped", endTime := some now1 },
        .ok { s with status := "stopped", endTime := some now1 }) := by
    simp [stopSession, hfind, hown]
  refine ⟨_, by rw [h1], rfl, rfl, ?_⟩
  have h2 : alookup (stopSession store sessionId userId now1).1 sessionId =
      some { s with status := "stopped", endTime := some now1 } := by
    rw [h1]
    exact alookup_aset store sessionId _
  have h3 : (stopSession (stopSession store sessionId userId now1).1
      sessionId userId now2).2 =
      .ok { ({ s with status := "stopped", endTime := some now1 } : Session) with
            status := "stopped", endTime := some now2 } := by
    rw [h1]
    simp [stopSession, alookup_aset, hown]
  exact ⟨_, h3, rfl, rfl⟩

/-- Claim C9 witness: stopping the concrete store at times 1 and 2. -/
theorem doubleStopIsNoopOnStatusButRestampsEndTime_witness :
    ∃ s1, (stopSession smallCapitalStore "u-st-0" "u" 1).2 = .ok s1 ∧
      s1.status = "stopped" ∧ s1.endTime = some 1 ∧
      ∃ s2, (stopSession (stopSession smallCapitalStore "u-st-0" "u" 1).1
          "u-st-0" "u" 2).2 = .ok s2 ∧
        s2.status = "stopped" ∧ s2.endTime = some 2 :=
  doubleStopIsNoopOnStatusButRestampsEndTime smallCapitalStore "u-st-0" "u"
    smallCapitalSession 1 2 rfl rfl

/-- Claim C9 counterexample to the spec's "no-op": the second stop
changes the stored `endTime` from 1 to 2. -/
theorem secondStopChangesEndTime :
    ((stopSession smallCapitalStore "u-st-0" "u" 1).2.toOption.map Session.endTime
        = some (some 1))
    ∧ ((stopSession (stopSession smallCapitalStore "u-st-0" "u" 1).1
        "u-st-0" "u" 2).2.toOption.map Session.endTime = some (some 2))
    ∧ some (2 : Nat) ≠ some (1 : Nat) := ⟨rfl, rfl, by decide⟩

/-- Claim C6: a sell action block with no quantity setting emits a
signal whose quantity is undefined and whose percentage is
`(settings.percentage || 100) / 100` — between 0 and 1 whenever the
setting is between 0 and 100 — and the simulator's quantity resolution
for such a signal falls back to the risk-based
`floor(cash × riskPerTrade / price)` formula. -/
theorem sellSignalLeavesQuantityToSimulator (settings : BlockSettings)
    (marketData : MarketData) (now : Nat) (sig : Signal)
    (hq : settings.quantity = none)
    (hsig : executeSellOrder settings marketData now = some sig) :
    sig.quantity = none
    ∧ sig.percentage = some (settings.percentage.getD 100 / 100)
    ∧ (settings.percentage = none → sig.percentage = some 1)
    ∧ (∀ pct, settings.percentage = some pct → 0 ≤ pct → pct ≤ 100 →
        sig.percentage = some (pct / 100) ∧ 0 ≤ pct / 100 ∧ pct / 100 ≤ 1)
    ∧ (∀ (session : Session) (p : ℚ), resolveTradeQuantity session sig p =
        ((Rat.floor (session.cashBalance * session.settings.riskPerTrade / p) : ℤ) : ℚ)) := by
  have hfields : sig.quantity = none
      ∧ sig.percentage = some (settings.percentage.getD 100 / 100)
      ∧ sig.riskLevel = none := by
    simp only [executeSellOrder, hq] at hsig
    split at hsig
    · split at hsig
      · exact absurd hsig (by simp)
      · split at hsig
        · exact absurd hsig (by simp)
        · obtain rfl := Option.some.inj hsig
          exact ⟨rfl, rfl, rfl⟩
    · obtain rfl := Option.some.inj hsig
      exact ⟨rfl, rfl, rfl⟩
  obtain ⟨hq', hpct, hrl⟩ := hfields
  refine ⟨hq', hpct, ?_, ?_, ?_⟩
  · intro hnone
    rw [hpct, hnone]
    norm_num
  · intro pct hsome h0 h100
    rw [hpct, hsome]
    refine ⟨rfl, by positivity, ?_⟩
    rw [div_le_one (by norm_num)]
    exact h100
  · intro session p
    simp [resolveTradeQuantity, jsOrQ, hq', hrl]

/-- Claim C6 witness: a 50% sell block yields percentage 1/2 and an
undefined quantity. -/
theorem sellSignalLeavesQuantityToSimulator_witness :
    (executeSellOrder sellHalfSettings spyMarketData 0).map Signal.percentage =
        some (some (1 / 2))
    ∧ (executeSellOrder sellHalfSettings spyMarketData 0).map Signal.quantity =
        some none := by
  have hsig : executeSellOrder sellHalfSettings spyMarketData 0 =
      some { action := "sell", symbol := "SPY", orderType := some "market",
             price := some 10, quantity := none,
             percentage := some ((50 : ℚ) / 100), timestamp := 0 } := rfl
  have h := sellSignalLeavesQuantityToSimulator sellHalfSettings spyMarketData 0
    { action := "sell", symbol := "SPY", orderType := some "market",
      price := some 10, quantity := none,
      percentage := some ((50 : ℚ) / 100), timestamp := 0 }
    rfl hsig
  rw [hsig]
  have h50 := h.2.2.2.1 50 rfl (by norm_num) (by norm_num)
  refine ⟨?_, ?_⟩
  · have hp := h50.1
    simp only [Option.map_some', Option.some.injEq]
    norm_num
  · simp [h.1]

/-- Claim C8: when all four source resolutions succeed, a crossover with
any value undefined evaluates to false; with all four values defined,
direction "above" means previous1 ≤ previous2 and current1 > current2,
"below" the mirror image, and "any" their disjunction. -/
theorem crossoverSemantics (settings : BlockSettings) (marketData : MarketData)
    (indicators : Indicators) (v1 v2 p1 p2 : Option ℚ)
    (h1 : getSourceValue settings.source1Type settings.source1 marketData indicators = .ok v1)
    (h2 : getSourceValue settings.source2Type settings.source2 marketData indicators = .ok v2)
    (h3 : getPreviousSourceValue settings.source1Type settings.source1 marketData indicators = .ok p1)
    (h4 : getPreviousSourceValue settings.source2Type settings.source2 marketData indicators = .ok p2) :
    ((v1 = none ∨ v2 = none ∨ p1 = none ∨ p2 = none) →
        evaluateCrossover settings marketData indicators = .ok false)
    ∧ (∀ a b c d, v1 = some a → v2 = some b → p1 = some c → p2 = some d →
        (settings.direction = some "above" →
          evaluateCrossover settings marketData indicators =
            .ok (decide (c ≤ d) && decide (a > b)))
        ∧ (settings.direction = some "below" →
          evaluateCrossover settings marketData indicators =
            .ok (decide (c ≥ d) && decide (a < b)))
        ∧ (settings.direction = some "any" →
          evaluateCrossover settings marketData indicators =
            .ok ((decide (c ≤ d) && decide (a > b)) || (decide (c ≥ d) && decide (a < b))))) := by
  constructor
  · intro hnone
    rcases v1 with _ | a <;> rcases v2 with _ | b <;>
      rcases p1 with _ | c <;> rcases p2 with _ | d <;>
      simp_all [evaluateCrossover, Bind.bind, Except.bind, pure, Except.pure]
  · intro a b c d ha hb hc hd
    subst ha; subst hb; subst hc; subst hd
    refine ⟨?_, ?_, ?_⟩ <;> intro hdir <;>
      simp [evaluateCrossover, h1, h2, h3, h4, hdir,
        Bind.bind, Except.bind, pure, Except.pure]

/-- Claim C8 witness: symbol A (9 → 10) crosses above symbol B (10 → 9);
the "above" direction fires and "below" does not. -/
theorem crossoverSemantics_witness :
    evaluateCrossover (crossoverExampleSettings "above") crossoverExampleData [] = .ok true
    ∧ evaluateCrossover (crossoverExampleSettings "below") crossoverExampleData [] = .ok false := by
  have hv1 : ∀ dir, getSourceValue (crossoverExampleSettings dir).source1Type
      (crossoverExampleSettings dir).source1 crossoverExampleData [] = .ok (some 10) :=
    fun _ => rfl
  have hv2 : ∀ dir, getSourceValue (crossoverExampleSettings dir).source2Type
      (crossoverExampleSettings dir).source2 crossoverExampleData [] = .ok (some 9) :=
    fun _ => rfl
  have hp1 : ∀ dir, getPreviousSourceValue (crossoverExampleSettings dir).source1Type
      (crossoverExampleSettings dir).source1 crossoverExampleData [] = .ok (some 9) :=
    fun _ => rfl
  have hp2 : ∀ dir, getPreviousSourceValue (crossoverExampleSettings dir).source2Type
      (crossoverExampleSettings dir).source2 crossoverExampleData [] = .ok (some 10) :=
    fun _ => rfl
  constructor
  · have h := crossoverSemantics (crossoverExampleSettings "above") crossoverExampleData []
      (some 10) (some 9) (some 9) (some 10) (hv1 "above") (hv2 "above") (hp1 "above") (hp2 "above")
    have heq := (h.2 10 9 9 10 rfl rfl rfl rfl).1 rfl
    rw [heq]
    norm_num
  · have h := crossoverSemantics (crossoverExampleSettings "below") crossoverExampleData []
      (some 10) (some 9) (some 9) (some 10) (hv1 "below") (hv2 "below") (hp1 "below") (hp2 "below")
    have heq := (h.2 10 9 9 10 rfl rfl rfl rfl).2.1 rfl
    rw [heq]
    norm_num

/-- Claim C7: with period `settings.period || 14`, `calculateSMA` throws
when the history is shorter than the period, and otherwise returns a
series of length `len - period + 1` whose i-th entry is the mean of the
`period` prices starting at index i (taken from `settings.priceField ||
"close"`), with `value` equal to the last entry of the series. -/
theorem smaComputesTrailingWindowMeans (priceData : SymbolData) (settings : BlockSettings) :
    (priceData.history.length < jsOrNat settings.period 14 →
        ∃ msg, calculateSMA priceData settings = .error msg)
    ∧ (jsOrNat settings.period 14 ≤ priceData.history.length →
        ∃ r, calculateSMA priceData settings = .ok r
          ∧ r.history.length = priceData.history.length - jsOrNat settings.period 14 + 1
          ∧ (∀ i, i < r.history.length →
              r.history.get? i =
                some ((((priceData.history.map (fun c =>
                    c.fieldD (jsOrStr settings.priceField "close"))).drop i).take
                    (jsOrNat settings.period 14)).sum / (jsOrNat settings.period 14 : ℚ)))
          ∧ r.history ≠ []
          ∧ r.value = r.history.getLastD 0) := by
  have hpos : 0 < jsOrNat settings.period 14 := by
    unfold jsOrNat
    cases settings.period with
    | none => norm_num
    | some p =>
        by_cases hp : p = 0 <;> simp [hp]
        omega
  have hlen : (priceData.history.map (fun c =>
      c.fieldD (jsOrStr settings.priceField "close"))).length = priceData.history.length :=
    List.length_map _ _
  constructor
  · intro hlt
    unfold calculateSMA
    rw [if_pos (by rw [hlen]; exact hlt)]
    exact ⟨_, rfl⟩
  · intro hge
    unfold calculateSMA
    rw [if_neg (by rw [hlen]; omega)]
    refine ⟨_, rfl, ?_, ?_, ?_, rfl⟩
    · simp only [smaSeries, List.length_map, List.length_range, hlen]
      omega
    · intro i hi
      simp only [smaSeries, List.length_map, List.length_range, hlen] at hi
      simp only [smaSeries, List.get?_map, List.get?_range hi, Option.map_some', hlen]
    · intro hnil
      have hL := congrArg List.length hnil
      simp only [smaSeries, List.length_map, List.length_range, hlen,
        List.length_nil] at hL
      omega

/-- Claim C7 witness: closes 1..5 at period 3 give the SMA series
[2, 3, 4] and value 4. -/
theorem smaComputesTrailingWindowMeans_witness :
    (∃ r, calculateSMA smaExampleData smaExampleSettings = .ok r
        ∧ r.history.length = smaExampleData.history.length - jsOrNat smaExampleSettings.period 14 + 1
        ∧ (∀ i, i < r.history.length →
            r.history.get? i =
              some ((((smaExampleData.history.map (fun c =>
                  c.fieldD (jsOrStr smaExampleSettings.priceField "close"))).drop i).take
                  (jsOrNat smaExampleSettings.period 14)).sum /
                (jsOrNat smaExampleSettings.period 14 : ℚ)))
        ∧ r.history ≠ []
        ∧ r.value = r.history.getLastD 0)
    ∧ (calculateSMA smaExampleData smaExampleSettings).toOption.map
        (fun r => r.history) = some [2, 3, 4]
    ∧ (calculateSMA smaExampleData smaExampleSettings).toOption.map
        (fun r => r.value) = some 4 := by
  refine ⟨(smaComputesTrailingWindowMeans smaExampleData smaExampleSettings).2 (by decide), ?_, ?_⟩
  · have heval : calculateSMA smaExampleData smaExampleSettings =
        .ok { value := 4, history := [2, 3, 4], period := 3, timestamp := 0 } := by
      simp [calculateSMA, smaExampleData, smaExampleSettings, smaSeries, jsOrNat, jsOrStr,
        mkCandle, Candle.fieldD, Candle.fieldOpt, List.range_succ]
      norm_num
    rw [heval]
    rfl
  · have heval : calculateSMA smaExampleData smaExampleSettings =
        .ok { value := 4, history := [2, 3, 4], period := 3, timestamp := 0 } := by
      simp [calculateSMA, smaExampleData, smaExampleSettings, smaSeries, jsOrNat, jsOrStr,
        mkCandle, Candle.fieldD, Candle.fieldOpt, List.range_succ]
      norm_num
    rw [heval]
    rfl

/-- `parseFloat("5")`. -/
theorem pf5 : parseFloat "5" = some 5 := by
  simp [parseFloat, digitsToNat, List.dropWhile, List.takeWhile]

/-- The value source "5" resolves to 5. -/
theorem gsv5 : getSourceValue (some "value") (some "5") [] [] = .ok (some 5) := by
  simp [getSourceValue, pf5, Option.bind]

/-- The example threshold condition 5 > 1 holds. -/
theorem cond5 : evaluateCondition alwaysTrueCondition [] [] = .ok true := by
  simp [evaluateCondition, alwaysTrueCondition, evaluateThreshold, gsv5,
    Bind.bind, Except.bind, pure, Except.pure]

/-- The limit-buy action block emits the 10-at-100 buy signal. -/
theorem act5 (now : Nat) : executeAction limitBuyBlock [] now = some (buySignal10 now) := by
  simp [executeAction, executeBuyOrder, limitBuyBlock, jsParseInt, alookup,
    Rat.floor, buySignal10]

theorem atcType : alwaysTrueCondition.type = "condition" := rfl

theorem lbbType : limitBuyBlock.type = "action" := rfl

/-- Processing `alwaysBuyStrategy` yields exactly the one buy signal. -/
theorem ps5 (now : Nat) : processStrategy alwaysBuyStrategy [] now = ([buySignal10 now], []) := by
  simp [processStrategy, processStrategyE, alwaysBuyStrategy, List.foldlM,
    indicatorStep, conditionStep, fireActions, atcType, lbbType, cond5, act5,
    Bind.bind, Except.bind, pure, Except.pure, List.filter, List.foldl]

theorem toStringZeroNat : toString (0 : Nat) = "0" := rfl

/-- `stoppedStore` written out: one stopped session. -/
theorem stoppedStoreEq : stoppedStore = [("u-st-0", stoppedSession)] := by
  simp [stoppedStore, stopSession, createSession, aset, alookup, updateFirst,
    jsOrQ, jsOrStr, stoppedSession, List.find?, toStringZeroNat, alwaysBuyStrategy]

theorem stoppedStratProj : stoppedSession.strategy = alwaysBuyStrategy := rfl

/-- Applying the buy signal to the stopped session: the trade executes. -/
theorem applyBuy : applySignal stoppedSession (buySignal10 5) [] 5 =
    { stoppedSession with
        positions := [{ symbol := "SPY", quantity := 10, averageCost := 100,
                        currentPrice := 100, openTime := 5, lastUpdated := 5 }]
        cashBalance := 9000
        transactions := [{ time := 5, type := "buy", symbol := "SPY",
                           quantity := 10, price := 100, total := 1000 }] } := by
  simp [applySignal, buySignal10, resolveExecutionPrice, resolveTradeQuantity,
    jsOrQ, alookup, List.find?, stoppedSession]
  norm_num

set_option maxHeartbeats 1000000 in
/-- Claim C1: `updateSession` performs NO status check — running the
update cycle on a session that is already `"stopped"` still executes
its strategy's buy signal: the status stays "stopped", yet the cash
balance drops from 10000 to 9000 and a transaction is recorded.  The
spec's claim that no signal execution is permitted once stopped does
not hold in the service code. -/
theorem updateSessionExecutesSignalsOnStoppedSession :
    (alookup stoppedStore "u-st-0").map Session.status = some "stopped"
    ∧ ((updateSession stoppedStore "u-st-0" [] 5).2.toOption.map
        (fun s => (s.status, s.cashBalance, s.transactions.length))) =
      some ("stopped", 9000, 1) := by
  constructor
  · rw [stoppedStoreEq]
    rfl
  · rw [updateSession, stoppedStoreEq]
    simp [alookup, List.find?, stoppedStratProj, ps5, executeSignals, List.foldl, applyBuy,
      updatePositions, updateMetrics, Except.toOption]
    rfl

/-- At a positive price, nonneg cash and risk, the resolved trade
quantity of a well-formed signal is nonnegative. -/
theorem resolveTradeQuantity_nonneg (session : Session) (signal : Signal) (p : ℚ)
    (hp : 0 < p) (hc : 0 ≤ session.cashBalance)
    (hr : 0 ≤ session.settings.riskPerTrade) (hsig : signalOK signal) :
    0 ≤ resolveTradeQuantity session signal p := by
  unfold resolveTradeQuantity
  apply jsOrQ_nonneg
  · exact fun v hv => hsig.1 v hv
  · have hrisk : 0 ≤ jsOrQ signal.riskLevel session.settings.riskPerTrade :=
      jsOrQ_nonneg _ _ (fun v hv => hsig.2 v hv) hr
    have : 0 ≤ session.cashBalance * jsOrQ signal.riskLevel session.settings.riskPerTrade / p :=
      div_nonneg (mul_nonneg hc hrisk) hp.le
    exact_mod_cast ratFloor_nonneg _ this

/-- A buy order generated from nonnegative settings is well-formed. -/
theorem executeBuyOrder_signalOK (settings : BlockSettings) (marketData : MarketData)
    (now : Nat) (sig : Signal)
    (hq : ∀ q, settings.quantity = some q → 0 ≤ q)
    (hr : ∀ r, settings.riskLevel = some r → 0 ≤ r)
    (h : executeBuyOrder settings marketData now = some sig) : signalOK sig := by
  have hrisk : 0 ≤ settings.riskLevel.getD (1 / 50) := by
    cases hrv : settings.riskLevel with
    | none => norm_num
    | some r => simpa using hr r hrv
  have hquant : ∀ q', (match settings.quantity with
      | none => none
      | some q => if q = 0 then none else some (jsParseInt q)) = some q' → 0 ≤ q' := by
    intro q' hq'
    cases hs : settings.quantity with
    | none => rw [hs] at hq'; simp at hq'
    | some q =>
        rw [hs] at hq'
        dsimp only at hq'
        by_cases hz : q = 0
        · rw [if_pos hz] at hq'; simp at hq'
        · rw [if_neg hz] at hq'
          obtain rfl := Option.some.inj hq'
          exact jsParseInt_nonneg q (hq q hs)
  simp only [executeBuyOrder] at h
  split at h
  · split at h
    · exact absurd h (by simp)
    · split at h
      · exact absurd h (by simp)
      · obtain rfl := Option.some.inj h
        exact ⟨hquant, fun r hr' => by
          obtain rfl := Option.some.inj hr'
          exact hrisk⟩
  · obtain rfl := Option.some.inj h
    exact ⟨hquant, fun r hr' => by
      obtain rfl := Option.some.inj hr'
      exact hrisk⟩

/-- A sell order generated from nonnegative settings is well-formed. -/
theorem executeSellOrder_signalOK (settings : BlockSettings) (marketData : MarketData)
    (now : Nat) (sig : Signal)
    (hq : ∀ q, settings.quantity = some q → 0 ≤ q)
    (h : executeSellOrder settings marketData now = some sig) : signalOK sig := by
  have hquant : ∀ q', (match settings.quantity with
      | none => none
      | some q => if q = 0 then none else some (jsParseInt q)) = some q' → 0 ≤ q' := by
    intro q' hq'
    cases hs : settings.quantity with
    | none => rw [hs] at hq'; simp at hq'
    | some q =>
        rw [hs] at hq'
        dsimp only at hq'
        by_cases hz : q = 0
        · rw [if_pos hz] at hq'; simp at hq'
        · rw [if_neg hz] at hq'
          obtain rfl := Option.some.inj hq'
          exact jsParseInt_nonneg q (hq q hs)
  simp only [executeSellOrder] at h
  split at h
  · split at h
    · exact absurd h (by simp)
    · split at h
      · exact absurd h (by simp)
      · obtain rfl := Option.some.inj h
        exact ⟨hquant, fun r hr' => by simp at hr'⟩
  · obtain rfl := Option.some.inj h
    exact ⟨hquant, fun r hr' => by simp at hr'⟩

/-- A stop-loss signal is always well-formed (no quantity, no risk). -/
theorem executeStopLoss_signalOK (settings : BlockSettings) (marketData : MarketData)
    (now : Nat) (sig : Signal)
    (h : executeStopLoss settings marketData now = some sig) : signalOK sig := by
  simp only [executeStopLoss] at h
  split at h
  · exact absurd h (by simp)
  · split at h
    · exact absurd h (by simp)
    · obtain rfl := Option.some.inj h
      exact ⟨fun q hq => by simp at hq, fun r hr => by simp at hr⟩

/-- A take-profit signal is always well-formed. -/
theorem executeTakeProfit_signalOK (settings : BlockSettings) (marketData : MarketData)
    (now : Nat) (sig : Signal)
    (h : executeTakeProfit settings marketData now = some sig) : signalOK sig := by
  simp only [executeTakeProfit] at h
  split at h
  · exact absurd h (by simp)
  · split at h
    · exact absurd h (by simp)
    · obtain rfl := Option.some.inj h
      exact ⟨fun q hq => by simp at hq, fun r hr => by simp at hr⟩

/-- Any signal dispatched by `executeAction` from a block with
nonnegative settings is well-formed. -/
theorem executeAction_signalOK (block : Block) (marketData : MarketData) (now : Nat)
    (sig : Signal) (hset : actionSettingsOK block)
    (h : executeAction block marketData now = some sig) : signalOK sig := by
  unfold executeAction at h
  split at h
  · exact executeBuyOrder_signalOK _ _ _ _ hset.1 hset.2 h
  · split at h
    · exact executeSellOrder_signalOK _ _ _ _ hset.1 h
    · split at h
      · exact executeStopLoss_signalOK _ _ _ _ h
      · split at h
        · exact executeTakeProfit_signalOK _ _ _ _ h
        · simp at h

/-- The action fold only appends well-formed signals. -/
theorem actionsFold_signalOK (marketData : MarketData) (now : Nat) :
    ∀ (actions : List Block), (∀ b ∈ actions, actionSettingsOK b) →
      ∀ (sacc : List Signal), (∀ sg ∈ sacc, signalOK sg) →
      ∀ sg ∈ actions.foldl (fun sacc actionBlock =>
          match executeAction actionBlock marketData now with
          | some signal => sacc ++ [signal]
          | none => sacc) sacc, signalOK sg := by
  intro actions
  induction actions with
  | nil => intro _ sacc hacc sg hsg; exact hacc sg hsg
  | cons a as ih =>
      intro hall sacc hacc sg hsg
      rw [List.foldl_cons] at hsg
      refine ih (fun b hb => hall b (List.mem_cons_of_mem a hb)) _ ?_ sg hsg
      intro sg' hsg'
      cases hex : executeAction a marketData now with
      | none => rw [hex] at hsg'; exact hacc sg' hsg'
      | some s =>
          rw [hex] at hsg'
          rcases List.mem_append.mp hsg' with hmem | hmem
          · exact hacc sg' hmem
          · have : sg' = s := by simpa using hmem
            rw [this]
            exact executeAction_signalOK a marketData now s
              (hall a (List.mem_cons_self a as)) hex

/-- Firing the action blocks of a well-formed strategy preserves
well-formedness of the accumulated signals. -/
theorem fireActions_signalOK (strategy : Strategy) (marketData : MarketData) (now : Nat)
    (hstrat : strategyOK strategy) (sacc : List Signal)
    (hacc : ∀ sg ∈ sacc, signalOK sg) :
    ∀ sg ∈ fireActions strategy marketData now sacc, signalOK sg := by
  unfold fireActions
  exact actionsFold_signalOK marketData now _
    (fun b hb => hstrat b (List.mem_of_mem_filter hb)) sacc hacc

/-- An invariant preserved by each step of an exception-valued fold is
preserved by the whole fold. -/
theorem foldlM_except_preserve {β : Type} (P : β → Prop)
    (f : β → Block → Except String β)
    (hf : ∀ acc b res, P acc → f acc b = .ok res → P res) :
    ∀ (blocks : List Block) (acc res : β), P acc →
      blocks.foldlM f acc = .ok res → P res := by
  intro blocks
  induction blocks with
  | nil =>
      intro acc res h hfold
      simp only [List.foldlM] at hfold
      obtain rfl := Except.ok.inj hfold
      exact h
  | cons b bs ih =>
      intro acc res h hfold
      simp only [List.foldlM] at hfold
      cases hstep : f acc b with
      | error e => rw [hstep] at hfold; simp [Bind.bind, Except.bind] at hfold
      | ok acc' =>
          rw [hstep] at hfold
          simp only [Bind.bind, Except.bind] at hfold
          exact ih acc' res (hf acc b acc' h hstep) hfold

/-- One condition step of a well-formed strategy keeps every
accumulated signal well-formed. -/
theorem conditionStep_preserve (strategy : Strategy) (marketData : MarketData)
    (now : Nat) (indicators : Indicators) (hstrat : strategyOK strategy) :
    ∀ (acc : List Signal) (b : Block) (res : List Signal),
      (∀ sg ∈ acc, signalOK sg) →
      conditionStep strategy marketData now indicators acc b = .ok res →
      ∀ sg ∈ res, signalOK sg := by
  intro acc b res hacc hstep
  unfold conditionStep at hstep
  split at hstep
  · cases hev : evaluateCondition b marketData indicators with
    | error e => rw [hev] at hstep; simp [Bind.bind, Except.bind] at hstep
    | ok c =>
        rw [hev] at hstep
        simp only [Bind.bind, Except.bind] at hstep
        cases c with
        | true =>
            simp only [if_true] at hstep
            obtain rfl : fireActions strategy marketData now acc = res := by
              simpa [pure, Except.pure] using hstep
            exact fireActions_signalOK strategy marketData now hstrat acc hacc
        | false =>
            obtain rfl : acc = res := by
              simpa [pure, Except.pure] using hstep
            exact hacc
  · obtain rfl : acc = res := by
      simpa [pure, Except.pure] using hstep
    exact hacc

/-- Every signal produced by processing a well-formed strategy is
well-formed. -/
theorem processStrategy_signals_signalOK (strategy : Strategy)
    (marketData : MarketData) (now : Nat) (hstrat : strategyOK strategy) :
    ∀ sg ∈ (processStrategy strategy marketData now).1, signalOK sg := by
  unfold processStrategy
  cases hE : processStrategyE strategy marketData now with
  | error e => simp
  | ok r =>
      unfold processStrategyE at hE
      cases hInd : strategy.blocks.foldlM (indicatorStep marketData) ([] : Indicators) with
      | error e => rw [hInd] at hE; simp [Bind.bind, Except.bind] at hE
      | ok indicators =>
          rw [hInd] at hE
          simp only [Bind.bind, Except.bind] at hE
          cases hSig : strategy.blocks.foldlM
              (conditionStep strategy marketData now indicators) ([] : List Signal) with
          | error e => rw [hSig] at hE; simp at hE
          | ok signals =>
              rw [hSig] at hE
              have hr : r = (signals, indicators) := by
                simpa [pure, Except.pure] using hE.symm
              subst hr
              intro sg hsg
              exact foldlM_except_preserve (fun l => ∀ sg ∈ l, signalOK sg)
                (conditionStep strategy marketData now indicators)
                (conditionStep_preserve strategy marketData now indicators hstrat)
                strategy.blocks [] signals (by simp) hSig sg hsg

/-- Applying one well-formed signal preserves the session invariant. -/
theorem applySignal_sessionOK (session : Session) (signal : Signal)
    (marketData : MarketData) (now : Nat)
    (hs : sessionOK session) (hsig : signalOK signal) :
    sessionOK (applySignal session signal marketData now) := by
  obtain ⟨hpos, hcash, hrisk, hstrat⟩ := hs
  simp only [applySignal]
  by_cases hp : resolveExecutionPrice signal marketData ≤ 0
  · rw [if_pos hp]
    exact ⟨hpos, hcash, hrisk, hstrat⟩
  · rw [if_neg hp]
    have hp' : 0 < resolveExecutionPrice signal marketData := lt_of_not_le hp
    have htq : 0 ≤ resolveTradeQuantity session signal
        (resolveExecutionPrice signal marketData) :=
      resolveTradeQuantity_nonneg session signal _ hp' hcash hrisk hsig
    by_cases hbuy : signal.action = "buy" ∨ signal.action = "long"
    · rw [if_pos hbuy]
      by_cases hcost : resolveExecutionPrice signal marketData *
          resolveTradeQuantity session signal (resolveExecutionPrice signal marketData) >
          session.cashBalance
      · rw [if_pos hcost]
        exact ⟨hpos, hcash, hrisk, hstrat⟩
      · rw [if_neg hcost]
        refine ⟨?_, ?_, hrisk, hstrat⟩
        · cases hfind : session.positions.find?
              (fun p => p.symbol == signal.symbol) with
          | none =>
              intro p hp2
              rcases List.mem_append.mp hp2 with h | h
              · exact hpos p h
              · have : p = { symbol := signal.symbol
                             quantity := resolveTradeQuantity session signal
                               (resolveExecutionPrice signal marketData)
                             averageCost := resolveExecutionPrice signal marketData
                             currentPrice := resolveExecutionPrice signal marketData
                             openTime := now, lastUpdated := now } := by simpa using h
                rw [this]
                exact htq
          | some pos0 =>
              obtain ⟨l1, l2, hsplit, -, hupd, -⟩ :=
                find?_split (fun p => p.symbol == signal.symbol)
                  (fun p =>
                    { p with
                        averageCost :=
                          (p.averageCost * p.quantity +
                            resolveExecutionPrice signal marketData *
                              resolveTradeQuantity session signal
                                (resolveExecutionPrice signal marketData)) /
                            (p.quantity +
                              resolveTradeQuantity session signal
                                (resolveExecutionPrice signal marketData))
                        quantity := p.quantity +
                          resolveTradeQuantity session signal
                            (resolveExecutionPrice signal marketData)
                        lastUpdated := now })
                  session.positions pos0 hfind
              rw [hupd]
              intro p hp2
              rcases List.mem_append.mp hp2 with h | h
              · exact hpos p (hsplit ▸ List.mem_append_left _ h)
              · rcases List.mem_cons.mp h with h | h
                · rw [h]
                  have h0 : 0 ≤ pos0.quantity :=
                    hpos pos0 (hsplit ▸ List.mem_append_right _ (List.mem_cons_self _ _))
                  simpa using add_nonneg h0 htq
                · exact hpos p
                    (hsplit ▸ List.mem_append_right _ (List.mem_cons_of_mem _ h))
        · have hle := not_lt.mp hcost
          simpa using sub_nonneg.mpr hle
    · rw [if_neg hbuy]
      by_cases hsell : signal.action = "sell" ∨ signal.action = "short"
      · rw [if_pos hsell]
        cases hfind : session.positions.find?
            (fun p => p.symbol == signal.symbol) with
        | none => exact ⟨hpos, hcash, hrisk, hstrat⟩
        | some position =>
            dsimp only
            by_cases hqty : position.quantity < resolveTradeQuantity session signal
                (resolveExecutionPrice signal marketData)
            · rw [if_pos hqty]
              exact ⟨hpos, hcash, hrisk, hstrat⟩
            · rw [if_neg hqty]
              refine ⟨?_, ?_, hrisk, hstrat⟩
              · by_cases hzero : position.quantity -
                    resolveTradeQuantity session signal
                      (resolveExecutionPrice signal marketData) ≤ 0
                · rw [if_pos hzero]
                  obtain ⟨l1, l2, hsplit, -, -, hrem⟩ :=
                    find?_split (fun p => p.symbol == signal.symbol) id
                      session.positions position hfind
                  rw [hrem]
                  intro p hp2
                  rcases List.mem_append.mp hp2 with h | h
                  · exact hpos p (hsplit ▸ List.mem_append_left _ h)
                  · exact hpos p
                      (hsplit ▸ List.mem_append_right _ (List.mem_cons_of_mem _ h))
                · rw [if_neg hzero]
                  obtain ⟨l1, l2, hsplit, -, hupd, -⟩ :=
                    find?_split (fun p => p.symbol == signal.symbol)
                      (fun p =>
                        { p with
                            quantity := p.quantity -
                              resolveTradeQuantity session signal
                                (resolveExecutionPrice signal marketData)
                            lastUpdated := now })
                      session.positions position hfind
                  rw [hupd]
                  intro p hp2
                  rcases List.mem_append.mp hp2 with h | h
                  · exact hpos p (hsplit ▸ List.mem_append_left _ h)
                  · rcases List.mem_cons.mp h with h | h
                    · rw [h]
                      simpa using sub_nonneg.mpr (not_lt.mp hqty)
                    · exact hpos p
                        (hsplit ▸ List.mem_append_right _ (List.mem_cons_of_mem _ h))
              · have hsale : 0 ≤ resolveExecutionPrice signal marketData *
                    resolveTradeQuantity session signal
                      (resolveExecutionPrice signal marketData) :=
                  mul_nonneg (lt_of_not_le hp).le htq
                simpa using add_nonneg hcash hsale
      · rw [if_neg hsell]
        exact ⟨hpos, hcash, hrisk, hstrat⟩

/-- Executing a batch of well-formed signals preserves the invariant. -/
theorem executeSignals_sessionOK (marketData : MarketData) (now : Nat) :
    ∀ (signals : List Signal) (session : Session), sessionOK session →
      (∀ sg ∈ signals, signalOK sg) →
      sessionOK (executeSignals session signals marketData now) := by
  intro signals
  induction signals with
  | nil => intro session hs _; exact hs
  | cons sg sgs ih =>
      intro session hs hall
      have h1 : executeSignals session (sg :: sgs) marketData now =
          executeSignals (applySignal session sg marketData now) sgs marketData now := rfl
      rw [h1]
      exact ih (applySignal session sg marketData now)
        (applySignal_sessionOK session sg marketData now hs
          (hall sg (List.mem_cons_self sg sgs)))
        (fun s hsg => hall s (List.mem_cons_of_mem sg hsg))

/-- Mark-to-market preserves the invariant (quantities untouched). -/
theorem updatePositions_sessionOK (session : Session) (marketData : MarketData)
    (now : Nat) (h : sessionOK session) :
    sessionOK (updatePositions session marketData now) := by
  obtain ⟨hpos, hcash, hrisk, hstrat⟩ := h
  refine ⟨?_, hcash, hrisk, hstrat⟩
  intro p hp
  simp only [updatePositions] at hp
  obtain ⟨y, hy, hyp⟩ := List.mem_map.mp hp
  have h0 := hpos y hy
  cases halk : alookup marketData y.symbol with
  | none => rw [halk] at hyp; rw [← hyp]; exact h0
  | some sd =>
      rw [halk] at hyp
      dsimp only at hyp
      by_cases hz : sd.price = 0
      · rw [if_pos hz] at hyp; rw [← hyp]; exact h0
      · rw [if_neg hz] at hyp; rw [← hyp]; exact h0

/-- Metrics recomputation preserves the invariant. -/
theorem updateMetrics_sessionOK (session : Session) (h : sessionOK session) :
    sessionOK (updateMetrics session) := by
  obtain ⟨hpos, hcash, hrisk, hstrat⟩ := h
  exact ⟨hpos, hcash, hrisk, hstrat⟩

/-- Session creation with nonnegative options and strategy settings
preserves the store invariant. -/
theorem createSession_storeOK (st : Store) (userId strategyId : String)
    (strategy : Option Strategy) (options : SessionOptions) (now : Nat)
    (h : storeOK st) (hs : ∀ strat, strategy = some strat → strategyOK strat)
    (ho : optionsOK options) :
    storeOK (createSession st userId strategyId strategy options now).1 := by
  unfold createSession
  cases strategy with
  | none => exact h
  | some strat =>
      dsimp only
      by_cases hu : strat.user ≠ userId
      · rw [if_pos hu]; exact h
      · rw [if_neg hu]
        intro kv hkv
        rcases mem_aset _ _ _ kv hkv with hmem | hval
        · exact h kv hmem
        · rw [hval]
          refine ⟨by simp, ?_, ?_, hs strat rfl⟩
          · exact jsOrQ_nonneg _ _ (fun v hv => ho.1 v hv) (by norm_num)
          · exact jsOrQ_nonneg _ _ (fun v hv => ho.2 v hv) (by norm_num)

/-- Stopping a session preserves the store invariant. -/
theorem stopSession_storeOK (st : Store) (sid uid : String) (now : Nat)
    (h : storeOK st) : storeOK (stopSession st sid uid now).1 := by
  unfold stopSession
  cases halk : alookup st sid with
  | none => exact h
  | some session =>
      dsimp only
      have hsess : sessionOK session := by
        obtain ⟨kv, hkv, hv⟩ := alookup_mem st sid session halk
        rw [← hv]; exact h kv hkv
      by_cases hu : session.userId ≠ uid
      · rw [if_pos hu]; exact h
      · rw [if_neg hu]
        intro kv hkv
        rcases mem_aset _ _ _ kv hkv with hmem | hval
        · exact h kv hmem
        · rw [hval]; exact hsess

/-- Deleting a session preserves the store invariant. -/
theorem deleteSession_storeOK (st : Store) (sid uid : String)
    (h : storeOK st) : storeOK (deleteSession st sid uid).1 := by
  unfold deleteSession
  cases halk : alookup st sid with
  | none => exact h
  | some session =>
      dsimp only
      by_cases hu : session.userId ≠ uid
      · rw [if_pos hu]; exact h
      · rw [if_neg hu]
        intro kv hkv
        exact h kv (mem_removeFirst _ _ kv hkv)

/-- An update cycle preserves the store invariant. -/
theorem updateSession_storeOK (st : Store) (sid : String)
    (marketData : MarketData) (now : Nat) (h : storeOK st) :
    storeOK (updateSession st sid marketData now).1 := by
  unfold updateSession
  cases halk : alookup st sid with
  | none => exact h
  | some session =>
      dsimp only
      have hsess : sessionOK session := by
        obtain ⟨kv, hkv, hv⟩ := alookup_mem st sid session halk
        rw [← hv]; exact h kv hkv
      have hs1 : sessionOK (if (processStrategy session.strategy marketData now).1.length > 0
          then executeSignals session (processStrategy session.strategy marketData now).1
            marketData now
          else session) := by
        by_cases hlen : (processStrategy session.strategy marketData now).1.length > 0
        · rw [if_pos hlen]
          exact executeSignals_sessionOK marketData now _ session hsess
            (processStrategy_signals_signalOK session.strategy marketData now hsess.2.2.2)
        · rw [if_neg hlen]
          exact hsess
      have hs3 : sessionOK (updateMetrics (updatePositions
          (if (processStrategy session.strategy marketData now).1.length > 0
            then executeSignals session (processStrategy session.strategy marketData now).1
              marketData now
            else session) marketData now)) :=
        updateMetrics_sessionOK _ (updatePositions_sessionOK _ marketData now hs1)
      intro kv hkv
      rcases mem_aset _ _ _ kv hkv with hmem | hval
      · exact h kv hmem
      · rw [hval]
        exact ⟨hs3.1, hs3.2.1, hs3.2.2.1, hs3.2.2.2⟩

/-- Every reachable store satisfies the invariant. -/
theorem reachable_storeOK (st : Store) (h : Reachable st) : storeOK st := by
  induction h with
  | empty => intro kv hkv; simp at hkv
  | create st userId strategyId strategy options now _ hs ho ih =>
      exact createSession_storeOK st userId strategyId strategy options now ih hs ho
  | update st sessionId marketData now _ ih =>
      exact updateSession_storeOK st sessionId marketData now ih
  | stop st sessionId userId now _ ih =>
      exact stopSession_storeOK st sessionId userId now ih
  | delete st sessionId userId _ ih =>
      exact deleteSession_storeOK st sessionId userId ih

/-- Every block of `riskBuyStrategy` has nonnegative trade settings. -/
theorem riskBuyStrategyOK : strategyOK riskBuyStrategy := by
  intro b hb
  simp [riskBuyStrategy] at hb
  rcases hb with h | h
  · subst h
    exact ⟨fun q hq => by simp [alwaysTrueCondition] at hq,
           fun r hr => by simp [alwaysTrueCondition] at hr⟩
  · subst h
    exact ⟨fun q hq => by simp [riskBuyBlock] at hq,
           fun r hr => by simp [riskBuyBlock] at hr⟩

/-- The 100-capital creation options are nonnegative. -/
theorem smallCapitalOptionsOK : optionsOK { initialCapital := some 100 } :=
  ⟨fun c hc => by rw [← Option.some.inj hc]; norm_num,
   fun r hr => Option.noConfusion hr⟩

/-- The 100-capital store is reachable. -/
theorem reachable_smallCapitalStore : Reachable smallCapitalStore :=
  Reachable.create [] "u" "st" (some riskBuyStrategy) { initialCapital := some 100 } 0
    Reachable.empty (fun s hs => by rw [← Option.some.inj hs]; exact riskBuyStrategyOK)
    smallCapitalOptionsOK

/-- The store after the zero-quantity update cycle is reachable. -/
theorem reachable_zeroQuantityStore : Reachable zeroQuantityStore :=
  Reachable.update smallCapitalStore "u-st-0" [] 1 reachable_smallCapitalStore

/-- `smallCapitalStore` written out. -/
theorem smallCapitalStoreEq : smallCapitalStore = [("u-st-0", smallCapitalSession)] := rfl

theorem rbbType : riskBuyBlock.type = "action" := rfl

/-- The risk-buy action block emits the quantity-less buy signal. -/
theorem actRisk (now : Nat) : executeAction riskBuyBlock [] now = some (riskBuySignal now) := by
  simp [executeAction, executeBuyOrder, riskBuyBlock, jsParseInt, alookup,
    Rat.floor, riskBuySignal]

/-- Processing `riskBuyStrategy` yields exactly the risk-based buy. -/
theorem psRisk (now : Nat) :
    processStrategy riskBuyStrategy [] now = ([riskBuySignal now], []) := by
  simp [processStrategy, processStrategyE, riskBuyStrategy, List.foldlM,
    indicatorStep, conditionStep, fireActions, atcType, rbbType, cond5, actRisk,
    Bind.bind, Except.bind, pure, Except.pure, List.filter, List.foldl]

theorem scsStratProj : smallCapitalSession.strategy = riskBuyStrategy := rfl

theorem ratFloorTwoFiftieths : Rat.floor ((100 : ℚ) * (1 / 50) / 10) = 0 :=
  ratFloor_eq _ 0 (by norm_num) (by norm_num)

theorem ratFloorFifth : Rat.floor ((1 : ℚ) / 5) = 0 :=
  ratFloor_eq _ 0 (by norm_num) (by norm_num)

/-- The risk-based buy on 100 cash at price 10 floors to 0 shares and
still creates a quantity-0 position with a total-0 transaction. -/
theorem applyRisk : applySignal smallCapitalSession (riskBuySignal 1) [] 1 =
    { smallCapitalSession with
        positions := [{ symbol := "SPY", quantity := 0, averageCost := 10,
                        currentPrice := 10, openTime := 1, lastUpdated := 1 }]
        cashBalance := 100
        transactions := [{ time := 1, type := "buy", symbol := "SPY",
                           quantity := 0, price := 10, total := 0 }] } := by
  simp [applySignal, riskBuySignal, resolveExecutionPrice, resolveTradeQuantity,
    jsOrQ, alookup, List.find?, smallCapitalSession]
  norm_num [ratFloorTwoFiftieths, ratFloorFifth]

/-- Claim C4 (amended): in every store reachable through the session
operations (creation restricted to nonnegative options and strategy
settings), every stored session keeps every position quantity and the
cash balance NONNEGATIVE — not strictly positive, as the zero-quantity
counterexample shows. -/
theorem reachableSessionPositionsNonneg (st : Store) (h : Reachable st)
    (sid : String) (s : Session) (hfind : alookup st sid = some s) :
    (∀ p ∈ s.positions, 0 ≤ p.quantity) ∧ 0 ≤ s.cashBalance := by
  have hOK := reachable_storeOK st h
  obtain ⟨kv, hkv, hv⟩ := alookup_mem st sid s hfind
  have hsess := hOK kv hkv
  rw [hv] at hsess
  exact ⟨hsess.1, hsess.2.1⟩

/-- Claim C4 witness: the invariant applied to the concrete reachable
100-capital store. -/
theorem reachableSessionPositionsNonneg_witness :
    Reachable smallCapitalStore
    ∧ alookup smallCapitalStore "u-st-0" = some smallCapitalSession
    ∧ (∀ p ∈ smallCapitalSession.positions, 0 ≤ p.quantity)
    ∧ 0 ≤ smallCapitalSession.cashBalance :=
  ⟨reachable_smallCapitalStore, rfl,
    reachableSessionPositionsNonneg smallCapitalStore reachable_smallCapitalStore
      "u-st-0" smallCapitalSession rfl⟩

set_option maxHeartbeats 1000000 in
/-- Claim C4 counterexample to strict positivity: the reachable store
`zeroQuantityStore` holds a session whose single position has
quantity 0 — `Math.floor(100 × 0.02 / 10) = 0` shares were "bought". -/
theorem zeroQuantityPositionReachable :
    Reachable zeroQuantityStore
    ∧ (alookup zeroQuantityStore "u-st-0").map
        (fun s => s.positions.map Position.quantity) = some [0] := by
  refine ⟨reachable_zeroQuantityStore, ?_⟩
  unfold zeroQuantityStore
  rw [updateSession, smallCapitalStoreEq]
  simp [alookup, List.find?, scsStratProj, psRisk, executeSignals, List.foldl, applyRisk,
    updatePositions, updateMetrics, aset, updateFirst]

end AlgoBlocks
